import Mathlib

/-!
OpenAstroTracker: the calibration menu state machine and the LCD menu

A shallow embedding of `c76_menuCAL.hpp` (the calibration menu of the
OpenAstroTracker firmware) and of the menu functions of `LcdMenu.cpp`, and
theorems about them.

Modelling conventions

* The module-scope variables of the source (`calState`, `SpeedCalibration`,
  `calDelay`, `driftSubIndex`, `driftDuration`, `BacklashSteps`, and the two
  step counts declared elsewhere) are the fields of `Sys`; every source
  function becomes a function on `Sys`.
* `byte` variables are `Nat`; a conversion of an `int` to `byte` is `toByte`
  (reduction modulo 256).
* `int` variables are `Int`. Signed overflow of the working values is undefined
  in C++ and is not modelled; no statement below depends on it.
* `float` values are rationals (`ℚ`). The argument of
  `mount.setSpeedCalibration`, the source expression
  `1.0 + SpeedCalibration / 10000.0`, is computed as the code computes it:
  `floatDiv` and `floatAdd` round each result to the nearest `float`
  (`binary32`: IEEE 754 single precision, round to nearest even, which is also
  the `double` of the AVR target), so `w = 25` gives `2102395 / 2097152` and
  not `401 / 400`. The value stored by the setter is the value passed.
* The other float operations (the seed of line 105, `SpeedCalibration += 1`,
  the delay updates `max(25, 0.94 * calDelay)` and `max(5, 0.96 * calDelay)`)
  are modelled by the exact operation. The increment is exact in `float` on
  the integers and half-integers below 2^15 used in the examples; the delay
  products enter only a comparison with the floor and a truncation to `int`,
  which rounding does not change for a delay of at most 150; no statement
  gives the value of the seed.
* Calls into the mount, the display and the keypad are recorded, in program
  order, in `Sys.out`; getters are queries and are not recorded.
* Logging (`LOGV2`) is not modelled.
* One call of `processCalibrationKeys` is one tick. What the keypad and the
  mount report during a tick is the `TickInput`.
-/

namespace OAT

/-! ## Collaborators -/

/-- Button codes of the keypad (`btnRIGHT` ... `btnNONE`); the macros are declared
outside the translated sources, the names are the ones the source uses. -/
inductive Button
  | btnRIGHT
  | btnUP
  | btnDOWN
  | btnLEFT
  | btnSELECT
  | btnNONE
  deriving DecidableEq, Repr

/-- Axis selectors `RA_STEPS` and `DEC_STEPS` passed to the step getters and setters. -/
inductive Axis
  | RA_STEPS
  | DEC_STEPS
  deriving DecidableEq, Repr

/-- Direction arguments the calibration menu passes to the mount: the macros
`EAST`, `WEST`, `TRACKING` (declared outside the translated sources) and the
literal `0` of `runDriftAlignmentPhase(0, 0)`. -/
inductive Direction
  | EAST
  | WEST
  | TRACKING
  | zero
  deriving DecidableEq, Repr

/-- Calls the calibration menu makes on the mount and on the display, with
their arguments. -/
inductive Cmd
  | delay (ms : Int)
  | setSpeedCalibration (val : ℚ) (saveToStorage : Bool)
  | setStepsPerDegree (which : Axis) (steps : Int)
  | setBacklashCorrection (steps : Int)
  | stopSlewing (direction : Direction)
  | startSlewing (direction : Direction)
  | runDriftAlignmentPhase (direction : Direction) (durationSecs : Nat)
  | setTargetRA (hours minutes seconds : Int)
  | setTargetDEC (degrees minutes seconds : Int)
  | startSlewingToTarget
  | setTargetToHome
  | syncPosition (raHour raMinute raSecond decDegree decMinute decSecond : Int)
  | lcdSetCursor (col row : Nat)
  | lcdPrintMenu (line : String)
  | lcdSetNextActive
  | lcdUpdateDisplay
  deriving DecidableEq, Repr

/-- Calls that go to Mount Control (as opposed to the display). -/
def Cmd.isMount : Cmd → Bool
  | .lcdSetCursor _ _ => false
  | .lcdPrintMenu _ => false
  | .lcdSetNextActive => false
  | .lcdUpdateDisplay => false
  | _ => true

/-- Calls that write a calibration value of the mount. -/
def Cmd.isSetter : Cmd → Bool
  | .setSpeedCalibration _ _ => true
  | .setStepsPerDegree _ _ => true
  | .setBacklashCorrection _ => true
  | _ => false

/-- Modelled from the spec: the calibration values Mount Control stores (the
class `Mount` is not among the translated sources). Section 6 of the spec
gives get/set accessors for the step ratio of each axis, the backlash
correction and the speed calibration factor; a setter stores its argument and
the getter returns what was stored last. -/
structure Mount where
  stepsPerDegreeRA : Int
  stepsPerDegreeDEC : Int
  backlashCorrection : Int
  speedCalibration : ℚ
  deriving DecidableEq, Repr

/-- Modelled from the spec: `mount.getStepsPerDegree(which)`. -/
def Mount.getStepsPerDegree (m : Mount) : Axis → Int
  | .RA_STEPS => m.stepsPerDegreeRA
  | .DEC_STEPS => m.stepsPerDegreeDEC

/-- Modelled from the spec: the store after `mount.setStepsPerDegree(which, steps)`. -/
def Mount.withStepsPerDegree (m : Mount) (which : Axis) (steps : Int) : Mount :=
  match which with
  | .RA_STEPS => { m with stepsPerDegreeRA := steps }
  | .DEC_STEPS => { m with stepsPerDegreeDEC := steps }

/-- Compile-time configuration the menu reads (`Configuration_adv.hpp` and the
Polaris constants are not among the translated sources). -/
structure Config where
  NORTHERN_HEMISPHERE : Bool
  PolarisRAHour : Int
  PolarisRAMinute : Int
  PolarisRASecond : Int
  deriving DecidableEq, Repr

/-- What the keypad and the mount report during one tick:
`lcdButtons.currentState()`, the pending edge `lcdButtons.keyChanged(&key)`
would deliver (`none`: it returns false), `mount.isSlewingRAorDEC()` and the
hours, minutes and seconds of `mount.currentRA()`. -/
structure TickInput where
  currentState : Button
  keyChanged : Option Button
  isSlewingRAorDEC : Bool
  currentRAHours : Int
  currentRAMinutes : Int
  currentRASeconds : Int
  deriving DecidableEq, Repr

/-! ## State -/

/-- The variables of the calibration menu, the mount store, the calls made so
far and the number of times the key edge was read. -/
structure Sys where
  calState : Nat
  SpeedCalibration : ℚ
  calDelay : Int
  driftSubIndex : Nat
  driftDuration : Nat
  BacklashSteps : Int
  RAStepsPerDegree : Int
  DECStepsPerDegree : Int
  mount : Mount
  out : List Cmd
  keyChangedCalls : Nat
  deriving DecidableEq, Repr

abbrev HIGHLIGHT_FIRST : Nat := 1
abbrev HIGHLIGHT_POLAR : Nat := 1
abbrev HIGHLIGHT_SPEED : Nat := 2
abbrev HIGHLIGHT_DRIFT : Nat := 3
abbrev HIGHLIGHT_RA_STEPS : Nat := 4
abbrev HIGHLIGHT_DEC_STEPS : Nat := 5
abbrev HIGHLIGHT_BACKLASH_STEPS : Nat := 6
abbrev HIGHLIGHT_LAST : Nat := 6
abbrev POLAR_CALIBRATION_WAIT_CENTER_POLARIS : Nat := 11
abbrev POLAR_CALIBRATION_WAIT_HOME : Nat := 12
abbrev SPEED_CALIBRATION : Nat := 14
abbrev DRIFT_CALIBRATION_WAIT : Nat := 15
abbrev DRIFT_CALIBRATION_RUNNING : Nat := 16
abbrev RA_STEP_CALIBRATION : Nat := 17
abbrev DEC_STEP_CALIBRATION : Nat := 18
abbrev BACKLASH_CALIBRATION : Nat := 19

/-- The variables as the source initialises them (`calState = HIGHLIGHT_FIRST`,
`calDelay = 150`, `driftSubIndex = 1`, `driftDuration = 0`, `BacklashSteps = 0`).
`SpeedCalibration` has no initialiser and starts at zero; the two step counts
are declared outside this file and are taken to start at zero. -/
def Sys.init (m : Mount) : Sys :=
  { calState := HIGHLIGHT_FIRST
    SpeedCalibration := 0
    calDelay := 150
    driftSubIndex := 1
    driftDuration := 0
    BacklashSteps := 0
    RAStepsPerDegree := 0
    DECStepsPerDegree := 0
    mount := m
    out := []
    keyChangedCalls := 0 }

/-! ## Helpers of the source language -/

/-- Conversion of an `int` to `byte`. -/
def toByte (x : Int) : Nat := (x % 256).toNat

/-- Conversion of a float to `int`: truncation toward zero. -/
def truncToInt (x : ℚ) : Int := if 0 ≤ x then ⌊x⌋ else ⌈x⌉

/-- The Arduino `max(a, b)`, which expands to `((a) > (b) ? (a) : (b))`. -/
def arduinoMax (a b : ℚ) : ℚ := if a > b then a else b

/-- Rounding of a rational to the nearest integer, a tie to the even neighbour. -/
def roundHalfEven (q : ℚ) : Int :=
  if q - ⌊q⌋ < 1 / 2 then ⌊q⌋
  else if 1 / 2 < q - ⌊q⌋ then ⌊q⌋ + 1
  else if ⌊q⌋ % 2 = 0 then ⌊q⌋ else ⌊q⌋ + 1

/-- The `float` (IEEE 754 binary32) nearest to the rational `q`, round to nearest
even: a significand of 24 bits at the binary exponent of `q`, and the fixed
spacing `2 ^ (-149)` below `2 ^ (-126)`. Overflow to infinity is not modelled:
it needs `|q| ≥ 2 ^ 128`, which no quotient `w / 10000.0` or sum `1.0 + x` of
finite floats below `2 ^ 127` reaches. -/
def binary32 (q : ℚ) : ℚ :=
  if q = 0 then 0
  else
    let e : Int := max (Int.log 2 |q|) (-126) - 23
    roundHalfEven (q / 2 ^ e) * 2 ^ e

/-- The float sum `a + b`: the exact sum, rounded. -/
def floatAdd (a b : ℚ) : ℚ := binary32 (a + b)

/-- The float quotient `a / b`: the exact quotient, rounded. -/
def floatDiv (a b : ℚ) : ℚ := binary32 (a / b)

/-- Modelled from the spec: `adjustWrap(v, d, lo, hi)` of `Utility.hpp`, which
is not among the translated sources: `v + d` wrapped into `[lo, hi]`. -/
def adjustWrap (current adjustBy minVal maxVal : Int) : Int :=
  minVal + (current + adjustBy - minVal) % (maxVal + 1 - minVal)

/-! ## Calls on the collaborators -/

/-- Record a call. -/
def emit (c : Cmd) (s : Sys) : Sys := { s with out := s.out ++ [c] }

/-- The call `mount.delay(ms)`. -/
def mountDelay (ms : Int) (s : Sys) : Sys := emit (.delay ms) s

/-- The call `mount.setSpeedCalibration(val, saveToStorage)`; the callers pass
the float value of `1.0 + SpeedCalibration / 10000.0`. -/
def mountSetSpeedCalibration (val : ℚ) (saveToStorage : Bool) (s : Sys) : Sys :=
  emit (.setSpeedCalibration val saveToStorage)
    { s with mount := { s.mount with speedCalibration := val } }

/-- The call `mount.setStepsPerDegree(which, steps)`. -/
def mountSetStepsPerDegree (which : Axis) (steps : Int) (s : Sys) : Sys :=
  emit (.setStepsPerDegree which steps)
    { s with mount := s.mount.withStepsPerDegree which steps }

/-- The call `mount.setBacklashCorrection(steps)`. -/
def mountSetBacklashCorrection (steps : Int) (s : Sys) : Sys :=
  emit (.setBacklashCorrection steps)
    { s with mount := { s.mount with backlashCorrection := steps } }

/-- The call `lcdMenu.printMenu(line)`. -/
def lcdPrintMenu (line : String) (s : Sys) : Sys := emit (.lcdPrintMenu line) s

/-- The call `lcdMenu.setCursor(col, row)`. -/
def lcdSetCursor (col row : Nat) (s : Sys) : Sys := emit (.lcdSetCursor col row) s

/-- The call `lcdMenu.setNextActive()`. -/
def lcdSetNextActive (s : Sys) : Sys := emit .lcdSetNextActive s

/-! ## `c76_menuCAL.hpp` -/

/-- The assignment `calDelay = max(floor, factor * calDelay)`. -/
def shrinkDelay (floor factor : ℚ) (s : Sys) : Sys :=
  { s with calDelay := truncToInt (arduinoMax floor (factor * (s.calDelay : ℚ))) }

/-- Source `checkProgressiveUpDown(int *val)`, lines 67-87. The pointer is
modelled by passing the pointed-to value in and returning its new value next
to the result and the new state; `held` is `lcdButtons.currentState()`. -/
def checkProgressiveUpDown (held : Button) (val : Int) (s : Sys) : Bool × Int × Sys :=
  if held = .btnUP then
    (false, val + 1, shrinkDelay 25 0.94 (mountDelay s.calDelay s))
  else if held = .btnDOWN then
    (false, val - 1, shrinkDelay 25 0.94 (mountDelay s.calDelay s))
  else
    (true, val, { s with calDelay := 150 })

/-- Source `gotoNextHighlightState(int dir)`, lines 92-110. -/
def gotoNextHighlightState (dir : Int) (s : Sys) : Sys :=
  let s1 := { s with calState := toByte (adjustWrap s.calState dir HIGHLIGHT_FIRST HIGHLIGHT_LAST) }
  if s1.calState = HIGHLIGHT_RA_STEPS then
    { s1 with RAStepsPerDegree := s1.mount.getStepsPerDegree .RA_STEPS }
  else if s1.calState = HIGHLIGHT_DEC_STEPS then
    { s1 with DECStepsPerDegree := s1.mount.getStepsPerDegree .DEC_STEPS }
  else if s1.calState = HIGHLIGHT_BACKLASH_STEPS then
    { s1 with BacklashSteps := s1.mount.backlashCorrection }
  else if s1.calState = HIGHLIGHT_SPEED then
    { s1 with SpeedCalibration := (s1.mount.speedCalibration - 1.0) * 10000.0 + 0.5 }
  else s1

/-- The `SPEED_CALIBRATION` branch of the first part of
`processCalibrationKeys`, lines 117-142; returns `checkForKeyChange` and the
new state. -/
def speedCalibrationHeld (held : Button) (s : Sys) : Bool × Sys :=
  if held = .btnUP then
    let s1 :=
      if s.SpeedCalibration < 32760 then
        let s2 := { s with SpeedCalibration := s.SpeedCalibration + 1 }
        let s3 :=
          mountSetSpeedCalibration (floatAdd 1.0 (floatDiv s2.SpeedCalibration 10000.0)) false s2
        mountSetSpeedCalibration (floatAdd 1.0 (floatDiv s3.SpeedCalibration 10000.0)) false s3
      else s
    (false, shrinkDelay 5 0.96 (mountDelay s1.calDelay s1))
  else if held = .btnDOWN then
    let s1 :=
      if s.SpeedCalibration > -32760 then
        let s2 := { s with SpeedCalibration := s.SpeedCalibration - 1 }
        mountSetSpeedCalibration (floatAdd 1.0 (floatDiv s2.SpeedCalibration 10000.0)) false s2
      else s
    (false, shrinkDelay 5 0.96 (mountDelay s1.calDelay s1))
  else
    (true, { s with calDelay := 150 })

/-- The `DRIFT_CALIBRATION_RUNNING` branch, lines 168-193. -/
def driftCalibrationRunning (s : Sys) : Sys :=
  let s := lcdSetCursor 0 1 s
  let s := lcdPrintMenu "Pause 1.5s ..." s
  let s := emit (.stopSlewing .TRACKING) s
  let s := mountDelay 1500 s
  let s := lcdSetCursor 0 1 s
  let s := lcdPrintMenu "Eastward pass..." s
  let s := emit (.runDriftAlignmentPhase .EAST s.driftDuration) s
  let s := lcdSetCursor 0 1 s
  let s := lcdPrintMenu "Pause 1.5s ..." s
  let s := mountDelay 1500 s
  let s := lcdSetCursor 0 1 s
  let s := lcdPrintMenu "Westward pass..." s
  let s := emit (.runDriftAlignmentPhase .WEST s.driftDuration) s
  let s := lcdSetCursor 0 1 s
  let s := lcdPrintMenu "Done. Pause 1.5s" s
  let s := mountDelay 1500 s
  let s := emit (.runDriftAlignmentPhase .zero 0) s
  let s := emit (.startSlewing .TRACKING) s
  { s with calState := HIGHLIGHT_DRIFT }

/-- The first part of `processCalibrationKeys`, lines 117-193: the chain of
`if (calState == ...)`; returns `checkForKeyChange` and the new state. -/
def continuousPass (inp : TickInput) (s : Sys) : Bool × Sys :=
  if s.calState = SPEED_CALIBRATION then
    speedCalibrationHeld inp.currentState s
  else if s.calState = RA_STEP_CALIBRATION then
    let r := checkProgressiveUpDown inp.currentState s.RAStepsPerDegree s
    (r.1, { r.2.2 with RAStepsPerDegree := r.2.1 })
  else if s.calState = DEC_STEP_CALIBRATION then
    let r := checkProgressiveUpDown inp.currentState s.DECStepsPerDegree s
    (r.1, { r.2.2 with DECStepsPerDegree := r.2.1 })
  else if s.calState = BACKLASH_CALIBRATION then
    let r := checkProgressiveUpDown inp.currentState s.BacklashSteps s
    (r.1, { r.2.2 with BacklashSteps := r.2.1 })
  else if s.calState = POLAR_CALIBRATION_WAIT_HOME then
    if !inp.isSlewingRAorDEC then
      (true, { (emit .lcdUpdateDisplay s) with calState := HIGHLIGHT_POLAR })
    else (true, s)
  else if s.calState = DRIFT_CALIBRATION_RUNNING then
    (true, driftCalibrationRunning s)
  else (true, s)

/-- The cases `HIGHLIGHT_SPEED`, `HIGHLIGHT_DRIFT`, `HIGHLIGHT_RA_STEPS`,
`HIGHLIGHT_DEC_STEPS` and `HIGHLIGHT_BACKLASH_STEPS` of the switch (lines
342-370 and 395-438). The five cases have the same text,
`if (DOWN) ...; if (UP) ... else if (SELECT) ... else if (RIGHT) ...`, and
differ in the state SELECT enters and the state RIGHT assigns. -/
def highlightCase (key : Button) (onSelect onRight : Nat) (s : Sys) : Sys :=
  let s1 := if key = .btnDOWN then gotoNextHighlightState 1 s else s
  if key = .btnUP then gotoNextHighlightState (-1) s1
  else if key = .btnSELECT then { s1 with calState := onSelect }
  else if key = .btnRIGHT then { (lcdSetNextActive s1) with calState := onRight }
  else s1

/-- The table `int duration[] = {27, 57, 87, 147}` of line 383. -/
def duration : List Int := [27, 57, 87, 147]

/-- The `switch (calState)` of `processCalibrationKeys`, lines 198-450, for the
key the edge delivered. A read of `duration` outside the table is undefined in
the source and yields 0 here. -/
def dispatchKey (cfg : Config) (inp : TickInput) (key : Button) (s : Sys) : Sys :=
  if s.calState = POLAR_CALIBRATION_WAIT_HOME then
    let s1 := if key = .btnSELECT then { s with calState := HIGHLIGHT_POLAR } else s
    if key = .btnRIGHT then { (lcdSetNextActive s1) with calState := HIGHLIGHT_POLAR } else s1
  else if s.calState = SPEED_CALIBRATION then
    if key = .btnSELECT then
      let s1 :=
        mountSetSpeedCalibration (floatAdd 1.0 (floatDiv s.SpeedCalibration 10000.0)) true s
      let s1 := lcdPrintMenu "Speed Stored." s1
      let s1 := mountDelay 500 s1
      { s1 with calState := HIGHLIGHT_SPEED }
    else if key = .btnRIGHT then
      let s1 :=
        mountSetSpeedCalibration (floatAdd 1.0 (floatDiv s.SpeedCalibration 10000.0)) true s
      let s1 := lcdSetNextActive s1
      { s1 with calState := HIGHLIGHT_SPEED }
    else s
  else if s.calState = RA_STEP_CALIBRATION then
    if key = .btnSELECT then
      let s1 := mountSetStepsPerDegree .RA_STEPS s.RAStepsPerDegree s
      let s1 := lcdPrintMenu "RA steps stored" s1
      let s1 := mountDelay 500 s1
      { s1 with calState := HIGHLIGHT_RA_STEPS }
    else if key = .btnRIGHT then
      { (lcdSetNextActive s) with calState := HIGHLIGHT_RA_STEPS }
    else s
  else if s.calState = DEC_STEP_CALIBRATION then
    if key = .btnSELECT then
      let s1 := mountSetStepsPerDegree .DEC_STEPS s.DECStepsPerDegree s
      let s1 := lcdPrintMenu "DEC steps stored." s1
      let s1 := mountDelay 500 s1
      { s1 with calState := HIGHLIGHT_DEC_STEPS }
    else if key = .btnRIGHT then
      { (lcdSetNextActive s) with calState := HIGHLIGHT_DEC_STEPS }
    else s
  else if s.calState = BACKLASH_CALIBRATION then
    if key = .btnSELECT then
      let s1 := mountSetBacklashCorrection s.BacklashSteps s
      let s1 := lcdPrintMenu "Backlash stored." s1
      let s1 := mountDelay 500 s1
      { s1 with calState := HIGHLIGHT_BACKLASH_STEPS }
    else if key = .btnRIGHT then
      { (lcdSetNextActive s) with calState := HIGHLIGHT_BACKLASH_STEPS }
    else s
  else if s.calState = HIGHLIGHT_POLAR then
    if key = .btnDOWN then gotoNextHighlightState 1 s
    else if key = .btnUP then gotoNextHighlightState (-1) s
    else if key = .btnSELECT then
      let s1 := { s with calState := POLAR_CALIBRATION_WAIT_CENTER_POLARIS }
      let s1 := emit (.setTargetRA cfg.PolarisRAHour cfg.PolarisRAMinute cfg.PolarisRASecond) s1
      let s1 := emit (.setTargetDEC (88 - (if cfg.NORTHERN_HEMISPHERE then 90 else -90)) 42 11) s1
      emit .startSlewingToTarget s1
    else if key = .btnRIGHT then lcdSetNextActive s
    else s
  else if s.calState = POLAR_CALIBRATION_WAIT_CENTER_POLARIS then
    if key = .btnSELECT then
      let s1 := { s with calState := POLAR_CALIBRATION_WAIT_HOME }
      let s1 := lcdPrintMenu "Aligned, homing" s1
      let s1 := mountDelay 750 s1
      let s1 := emit (.syncPosition inp.currentRAHours inp.currentRAMinutes inp.currentRASeconds
        (89 - (if cfg.NORTHERN_HEMISPHERE then 90 else -90)) 21 6) s1
      let s1 := emit .setTargetToHome s1
      let s1 := emit .startSlewingToTarget s1
      let s1 := lcdSetNextActive s1
      { s1 with calState := HIGHLIGHT_POLAR }
    else if key = .btnRIGHT then
      { (lcdSetNextActive s) with calState := HIGHLIGHT_POLAR }
    else s
  else if s.calState = HIGHLIGHT_SPEED then
    highlightCase key SPEED_CALIBRATION HIGHLIGHT_POLAR s
  else if s.calState = HIGHLIGHT_DRIFT then
    highlightCase key DRIFT_CALIBRATION_WAIT HIGHLIGHT_POLAR s
  else if s.calState = DRIFT_CALIBRATION_WAIT then
    let s1 :=
      if key = .btnDOWN ∨ key = .btnLEFT then
        { s with driftSubIndex := toByte (adjustWrap s.driftSubIndex 1 0 3) }
      else s
    let s2 :=
      if key = .btnUP then
        { s1 with driftSubIndex := toByte (adjustWrap s1.driftSubIndex (-1) 0 3) }
      else s1
    if key = .btnSELECT then
      { s2 with driftDuration := toByte (duration.getD s2.driftSubIndex 0),
                calState := DRIFT_CALIBRATION_RUNNING }
    else if key = .btnRIGHT then
      { s2 with calState := HIGHLIGHT_DRIFT, driftSubIndex := 1 }
    else s2
  else if s.calState = HIGHLIGHT_RA_STEPS then
    highlightCase key RA_STEP_CALIBRATION HIGHLIGHT_FIRST s
  else if s.calState = HIGHLIGHT_DEC_STEPS then
    highlightCase key DEC_STEP_CALIBRATION HIGHLIGHT_FIRST s
  else if s.calState = HIGHLIGHT_BACKLASH_STEPS then
    highlightCase key BACKLASH_CALIBRATION HIGHLIGHT_FIRST s
  else s

/-- Source `processCalibrationKeys()`, lines 112-454: one tick. Returns
`waitForRelease` and the new state. The condition
`checkForKeyChange && lcdButtons.keyChanged(&key)` calls `keyChanged` only
when `checkForKeyChange` holds; each call is counted in `keyChangedCalls`. -/
def processCalibrationKeys (cfg : Config) (inp : TickInput) (s : Sys) : Bool × Sys :=
  let r := continuousPass inp s
  if r.1 then
    let s1 := { r.2 with keyChangedCalls := r.2.keyChangedCalls + 1 }
    match inp.keyChanged with
    | some key => (true, dispatchKey cfg inp key s1)
    | none => (false, s1)
  else (false, r.2)

/-- The state after one tick. -/
def tick (cfg : Config) (inp : TickInput) (s : Sys) : Sys :=
  (processCalibrationKeys cfg inp s).2

/-- The state after a sequence of ticks, one per element of `inps`, in order. -/
def runTicks (cfg : Config) (inps : List TickInput) (s : Sys) : Sys :=
  inps.foldl (fun acc inp => tick cfg inp acc) s

/-! ## `printCalibrationSubmenu` -/

/-- The assignment `buf[i] = c` on the text held in a character buffer, for an
index inside the text; an index past the text leaves the printed text as it is. -/
def setCharAt (buf : String) (i : Nat) (c : Char) : String := String.mk (buf.data.set i c)

/-- The template of the duration picker, line 494. -/
def driftPickerTemplate : String := " 1m  2m  3m  5m"

/-- Source `printCalibrationSubmenu()`, lines 456-514. `sprintf` with `%d` is
`toString` on `Int`; the library function `dtostrf` (value, width, precision)
is a parameter; `isSlewingRAorDEC` is what `mount.isSlewingRAorDEC()` reports. -/
def printCalibrationSubmenu (dtostrf : ℚ → Nat → Nat → String) (isSlewingRAorDEC : Bool)
    (s : Sys) : Sys :=
  if s.calState = HIGHLIGHT_POLAR then lcdPrintMenu ">Polar alignment" s
  else if s.calState = HIGHLIGHT_SPEED then lcdPrintMenu ">Speed calibratn" s
  else if s.calState = HIGHLIGHT_DRIFT then lcdPrintMenu ">Drift alignment" s
  else if s.calState = HIGHLIGHT_RA_STEPS then lcdPrintMenu ">RA Step Adjust" s
  else if s.calState = HIGHLIGHT_DEC_STEPS then lcdPrintMenu ">DEC Step Adjust" s
  else if s.calState = HIGHLIGHT_BACKLASH_STEPS then lcdPrintMenu ">Backlash Adjust" s
  else if s.calState = POLAR_CALIBRATION_WAIT_CENTER_POLARIS then
    if !isSlewingRAorDEC then
      let s1 := lcdSetCursor 0 0 s
      let s1 := lcdPrintMenu "Centr on Polaris" s1
      let s1 := lcdSetCursor 0 1 s1
      lcdPrintMenu ">Centered" s1
    else s
  else if s.calState = SPEED_CALIBRATION then
    lcdPrintMenu ("SpdFctr: " ++ dtostrf s.mount.speedCalibration 6 4) s
  else if s.calState = DRIFT_CALIBRATION_WAIT then
    lcdPrintMenu (setCharAt driftPickerTemplate (s.driftSubIndex * 4) '>') s
  else if s.calState = RA_STEP_CALIBRATION then
    lcdPrintMenu ("RA Steps: " ++ toString s.RAStepsPerDegree) s
  else if s.calState = DEC_STEP_CALIBRATION then
    lcdPrintMenu ("DEC Steps: " ++ toString s.DECStepsPerDegree) s
  else if s.calState = BACKLASH_CALIBRATION then
    lcdPrintMenu ("Backlash: " ++ toString s.BacklashSteps) s
  else s

/-! ## `LcdMenu.cpp`

The class `LcdMenu`. Its declaration (`LcdMenu.hpp`) is not among the
translated sources; the members `_numMenuItems`, `_activeMenuIndex`,
`_longestDisplay`, `_columns`, `_activeRow` and `_activeCol` are taken to be
bytes, as the loops over `byte i` and the byte parameters of the constructor
and of `setCursor` suggest. `_numMenuItems` is the length of the list of items.
C strings are lists of characters without a terminator. A write past the end of
a local character buffer is undefined in the source; a function that would make
one returns `none`. -/

/-- A menu item: display text and id. -/
structure MenuItem where
  display : List Char
  id : Nat
  deriving DecidableEq, Repr

/-- The custom characters the constructor creates (`_degrees`, `_minutes`, and
the four arrows). -/
inductive Glyph
  | degrees
  | minutes
  | leftArrow
  | rightArrow
  | upArrow
  | downArrow
  deriving DecidableEq, Repr

/-- Calls on the display driver `_lcd`. -/
inductive LcdCall
  | setCursor (col row : Nat)
  | print (c : Char)
  | write (g : Glyph)
  deriving DecidableEq, Repr

/-- The members of `LcdMenu` its menu functions use, and the calls made on `_lcd`. -/
structure LcdMenu where
  menuItems : List MenuItem
  activeMenuIndex : Nat
  longestDisplay : Nat
  columns : Nat
  activeRow : Nat
  activeCol : Nat
  lastDisplay0 : List Char
  lastDisplay1 : List Char
  lcd : List LcdCall
  deriving DecidableEq, Repr

/-- Source `LcdMenu::getActive()`, lines 55-57: `none` when the index is outside
the items. -/
def LcdMenu.getActive (m : LcdMenu) : Option Nat :=
  (m.menuItems[m.activeMenuIndex]?).map MenuItem.id

/-- Source `LcdMenu::setCursor(col, row)`, lines 69-72. -/
def LcdMenu.setCursor (col row : Nat) (m : LcdMenu) : LcdMenu :=
  { m with activeRow := row, activeCol := col }

/-- Source `LcdMenu::printChar(ch)`, lines 170-192. -/
def LcdMenu.printChar (ch : Char) (m : LcdMenu) : LcdMenu :=
  if ch = '>' then { m with lcd := m.lcd ++ [.write .rightArrow] }
  else if ch = '<' then { m with lcd := m.lcd ++ [.write .leftArrow] }
  else if ch = '^' then { m with lcd := m.lcd ++ [.write .upArrow] }
  else if ch = '~' then { m with lcd := m.lcd ++ [.write .downArrow] }
  else if ch = '@' then { m with lcd := m.lcd ++ [.write .degrees] }
  else if ch = '\'' then { m with lcd := m.lcd ++ [.write .minutes] }
  else { m with lcd := m.lcd ++ [.print ch] }

/-- Source `LcdMenu::printMenu(line)`, lines 195-212. `_lastDisplay` has two
entries; a row other than 0 or 1 indexes outside it. -/
def LcdMenu.printMenu (line : List Char) (m : LcdMenu) : Option LcdMenu :=
  if m.activeRow ≥ 2 then none
  else
    let last := if m.activeRow = 0 then m.lastDisplay0 else m.lastDisplay1
    if last ≠ line ∨ m.activeCol ≠ 0 then
      let m1 :=
        if m.activeRow = 0 then { m with lastDisplay0 := line }
        else { m with lastDisplay1 := line }
      let m2 := { m1 with lcd := m1.lcd ++ [.setCursor m1.activeCol m1.activeRow] }
      let m3 := line.foldl (fun acc ch => LcdMenu.printChar ch acc) m2
      some { m3 with lcd := m3.lcd ++ List.replicate (m3.columns - line.length) (.print ' ') }
    else some m

/-- The text `sprintf(scratchBuffer, "%c%s%c", ...)` of line 132 produces. -/
def formatItem (isActive : Bool) (display : List Char) : List Char :=
  (if isActive then '>' else ' ') :: (display ++ [if isActive then '<' else ' '])

/-- The variables of the loop of lines 129-138. -/
structure MenuBuild where
  menuString : List Char
  offsetToActive : Nat
  offset : Nat
  deriving DecidableEq, Repr

/-- The loop of lines 129-138 from item index `i` on. The formatted item and its
terminator must fit `scratchBuffer[12]`; `offset` is a byte. -/
def buildMenuString (activeMenuIndex : Nat) : List MenuItem → Nat → MenuBuild → Option MenuBuild
  | [], _, b => some b
  | item :: rest, i, b =>
    let isActive := decide (i = activeMenuIndex)
    let scratchBuffer := formatItem isActive item.display
    if scratchBuffer.length < 12 then
      buildMenuString activeMenuIndex rest (i + 1)
        { menuString := b.menuString ++ scratchBuffer
          offsetToActive := if isActive then b.offset else b.offsetToActive
          offset := (b.offset + scratchBuffer.length) % 256 }
    else none

/-- The line `LcdMenu::updateDisplay()` (lines 119-168) passes to `printMenu`: the
content of `bufMenu` after the three loops of lines 149-162. The first loop
writes one space for each unit `offsetIntoString` is below zero; the second
copies the menu string from `offsetIntoString` on while the buffer holds fewer
than `_columns` characters; the third fills up to `_columns` characters with
spaces. The characters and the terminator must fit `bufMenu[17]`. -/
def LcdMenu.updateDisplayLine (m : LcdMenu) : Option (List Char) :=
  match buildMenuString m.activeMenuIndex m.menuItems 0 ⟨[], 0, 0⟩ with
  | none => none
  | some b =>
    let margin : Int := Int.tdiv ((m.columns : Int) - (m.longestDisplay : Int)) 2
    let offsetIntoString : Int := (b.offsetToActive : Int) - margin
    let front := List.replicate (-offsetIntoString).toNat ' '
    let copied := (b.menuString.drop offsetIntoString.toNat).take (m.columns - front.length)
    let back := List.replicate (m.columns - (front.length + copied.length)) ' '
    let bufMenu := front ++ copied ++ back
    if bufMenu.length < 17 then some bufMenu else none

/-- Source `LcdMenu::updateDisplay()`, lines 119-168. -/
def LcdMenu.updateDisplay (m : LcdMenu) : Option LcdMenu :=
  match m.updateDisplayLine with
  | none => none
  | some line =>
    let m1 : LcdMenu :=
      { m with lcd := m.lcd ++ [LcdCall.setCursor 0 0], activeRow := 0, activeCol := 0 }
    match m1.printMenu line with
    | none => none
    | some m2 => some (m2.setCursor 0 1)

/-- Source `LcdMenu::setNextActive()`, lines 101-113. -/
def LcdMenu.setNextActive (m : LcdMenu) : Option LcdMenu :=
  let m1 : LcdMenu := { m with
    activeMenuIndex := toByte (adjustWrap m.activeMenuIndex 1 0 ((m.menuItems.length : Int) - 1)) }
  match m1.updateDisplay with
  | none => none
  | some m2 =>
    some { m2 with
      lcd := m2.lcd ++ [LcdCall.setCursor 0 1] ++ List.replicate m2.columns (LcdCall.print ' ') }

/-- The result of `n` calls of `setNextActive` in a row. -/
def LcdMenu.setNextActiveTimes : Nat → LcdMenu → Option LcdMenu
  | 0, m => some m
  | n + 1, m =>
    match m.setNextActive with
    | none => none
    | some m1 => LcdMenu.setNextActiveTimes n m1

/-- The whole menu string for the items from index `i` on: the formatted items
in order. Used to state what `updateDisplay` shows. -/
def menuText (activeMenuIndex : Nat) : List MenuItem → Nat → List Char
  | [], _ => []
  | item :: rest, i =>
    formatItem (decide (i = activeMenuIndex)) item.display ++ menuText activeMenuIndex rest (i + 1)

/-- The number of characters of the menu string before the active item, for the
items from index `i` on. Used to state what `updateDisplay` shows. -/
def activeOffset (activeMenuIndex : Nat) : List MenuItem → Nat → Nat
  | [], _ => 0
  | item :: rest, i =>
    if i = activeMenuIndex then 0
    else (item.display.length + 2) + activeOffset activeMenuIndex rest (i + 1)

/-! ## Reference forms used in comparisons -/

/-- The handler of a highlight state written in the symmetric form of the
`HIGHLIGHT_POLAR` case (lines 296-299), `if (DOWN) ... else if (UP) ...`,
followed by the SELECT and RIGHT branches of the other highlight cases. This
is the form the spec compares the `HIGHLIGHT_SPEED` case with; it is not a
translation of a source function. -/
def highlightCaseSymmetric (key : Button) (onSelect onRight : Nat) (s : Sys) : Sys :=
  if key = .btnDOWN then gotoNextHighlightState 1 s
  else if key = .btnUP then gotoNextHighlightState (-1) s
  else if key = .btnSELECT then { s with calState := onSelect }
  else if key = .btnRIGHT then { (lcdSetNextActive s) with calState := onRight }
  else s

/-- What the spec's open question supposes an UP key does in the Speed
highlight state: `gotoNextHighlightState(1)` and then
`gotoNextHighlightState(-1)`. Not a translation of a source function. -/
def bothDirections (s : Sys) : Sys := gotoNextHighlightState (-1) (gotoNextHighlightState 1 s)

/-- The mount setter calls of one tick, tabulated by state and input: the
non-persisting speed calls of the held keys in SpeedEdit, and the commit call
of a SELECT edge (in SpeedEdit also of a RIGHT edge) when neither UP nor DOWN
is held. `tick_setters` proves that these are the setter calls
`processCalibrationKeys` makes. -/
def setterCallsOfTick (inp : TickInput) (s : Sys) : List Cmd :=
  if s.calState = SPEED_CALIBRATION then
    if inp.currentState = .btnUP then
      if s.SpeedCalibration < 32760 then
        [.setSpeedCalibration (floatAdd 1 (floatDiv (s.SpeedCalibration + 1) 10000)) false,
          .setSpeedCalibration (floatAdd 1 (floatDiv (s.SpeedCalibration + 1) 10000)) false]
      else []
    else if inp.currentState = .btnDOWN then
      if s.SpeedCalibration > -32760 then
        [.setSpeedCalibration (floatAdd 1 (floatDiv (s.SpeedCalibration - 1) 10000)) false]
      else []
    else if inp.keyChanged = some .btnSELECT ∨ inp.keyChanged = some .btnRIGHT then
      [.setSpeedCalibration (floatAdd 1 (floatDiv s.SpeedCalibration 10000)) true]
    else []
  else if inp.currentState = .btnUP ∨ inp.currentState = .btnDOWN then []
  else if inp.keyChanged = some .btnSELECT then
    if s.calState = RA_STEP_CALIBRATION then [.setStepsPerDegree .RA_STEPS s.RAStepsPerDegree]
    else if s.calState = DEC_STEP_CALIBRATION then
      [.setStepsPerDegree .DEC_STEPS s.DECStepsPerDegree]
    else if s.calState = BACKLASH_CALIBRATION then [.setBacklashCorrection s.BacklashSteps]
    else []
  else []

/-- The values of `calState` the claim on reachable states lists: the six
highlight states, PolarWaitCenterPolaris, SpeedEdit, DriftWaitSelectDuration,
DriftRunning, RaStepsEdit, DecStepsEdit and BacklashEdit. -/
def tickBoundaryStates : List Nat :=
  [HIGHLIGHT_POLAR, HIGHLIGHT_SPEED, HIGHLIGHT_DRIFT, HIGHLIGHT_RA_STEPS, HIGHLIGHT_DEC_STEPS,
    HIGHLIGHT_BACKLASH_STEPS, POLAR_CALIBRATION_WAIT_CENTER_POLARIS, SPEED_CALIBRATION,
    DRIFT_CALIBRATION_WAIT, DRIFT_CALIBRATION_RUNNING, RA_STEP_CALIBRATION,
    DEC_STEP_CALIBRATION, BACKLASH_CALIBRATION]

/-! ## Concrete data for the examples -/

/-- A mount store used in the concrete examples. -/
def exMount : Mount :=
  { stepsPerDegreeRA := 300, stepsPerDegreeDEC := 160, backlashCorrection := 16,
    speedCalibration := 1 }

/-- A configuration used in the concrete examples (northern hemisphere). -/
def exConfig : Config :=
  { NORTHERN_HEMISPHERE := true, PolarisRAHour := 2, PolarisRAMinute := 57,
    PolarisRASecond := 56 }

/-- A tick input in which the button `b` is held and no edge is pending. -/
def heldInput (b : Button) : TickInput :=
  { currentState := b, keyChanged := none, isSlewingRAorDEC := false,
    currentRAHours := 0, currentRAMinutes := 0, currentRASeconds := 0 }

/-- A tick input in which no button is held and the edge delivers the key `k`. -/
def edgeInput (k : Button) : TickInput :=
  { currentState := .btnNONE, keyChanged := some k, isSlewingRAorDEC := false,
    currentRAHours := 0, currentRAMinutes := 0, currentRASeconds := 0 }

/-- The initial variables over `exMount`, with `calState` replaced by `c`. -/
def exSys (c : Nat) : Sys := { Sys.init exMount with calState := c }

/-- The example state in SpeedEdit with working value `w`. -/
def speedEditAt (w : ℚ) : Sys := { exSys SPEED_CALIBRATION with SpeedCalibration := w }

/-- The calls of one drift run of one-way duration `d`, as section 4.3 of the
spec lists them: each phase preceded by its status line on row 1. -/
def driftTrace (d : Nat) : List Cmd :=
  [ .lcdSetCursor 0 1, .lcdPrintMenu "Pause 1.5s ...", .stopSlewing .TRACKING, .delay 1500,
    .lcdSetCursor 0 1, .lcdPrintMenu "Eastward pass...", .runDriftAlignmentPhase .EAST d,
    .lcdSetCursor 0 1, .lcdPrintMenu "Pause 1.5s ...", .delay 1500,
    .lcdSetCursor 0 1, .lcdPrintMenu "Westward pass...", .runDriftAlignmentPhase .WEST d,
    .lcdSetCursor 0 1, .lcdPrintMenu "Done. Pause 1.5s", .delay 1500,
    .runDriftAlignmentPhase .zero 0, .startSlewing .TRACKING ]

/-- The example state in DriftRunning with committed duration `d`. -/
def driftRunningAt (d : Nat) : Sys :=
  { exSys DRIFT_CALIBRATION_RUNNING with driftDuration := d }

/-- The example state in DriftWaitSelectDuration with selection index `i`. -/
def driftWaitAt (i : Nat) : Sys :=
  { exSys DRIFT_CALIBRATION_WAIT with driftSubIndex := i }

/-- The example state in RaStepsEdit with working value `w` (the stored value of
`exMount` is 300). -/
def raEditAt (w : Int) : Sys := { exSys RA_STEP_CALIBRATION with RAStepsPerDegree := w }

/-- A formatter standing in for `dtostrf` in the examples. -/
def exDtostrf (_v : ℚ) (_width _prec : Nat) : String := "1.0000"

/-- A menu used in the concrete examples: the items RA, DEC, CAL on 16 columns
with the active index `i`. -/
def exMenu (i : Nat) : LcdMenu :=
  { menuItems := [⟨"RA".toList, 1⟩, ⟨"DEC".toList, 2⟩, ⟨"CAL".toList, 3⟩]
    activeMenuIndex := i
    longestDisplay := 3
    columns := 16
    activeRow := 0
    activeCol := 0
    lastDisplay0 := []
    lastDisplay1 := []
    lcd := [] }

/-- A menu with one item whose text has ten characters, on 16 columns. -/
def longLabelMenu : LcdMenu :=
  { menuItems := [⟨"0123456789".toList, 1⟩]
    activeMenuIndex := 0
    longestDisplay := 10
    columns := 16
    activeRow := 0
    activeCol := 0
    lastDisplay0 := []
    lastDisplay1 := []
    lcd := [] }

/-- A menu with one item with empty text, on a display of no columns. -/
def noColumnsMenu : LcdMenu :=
  { menuItems := [⟨[], 1⟩]
    activeMenuIndex := 0
    longestDisplay := 0
    columns := 0
    activeRow := 0
    activeCol := 0
    lastDisplay0 := []
    lastDisplay1 := []
    lcd := [] }

/-! ## Theorems -/

/-! ## Basic facts -/

/-! ### Float rounding -/

/-- A rational within a half of an integer rounds to that integer. -/
theorem roundHalfEven_eq (q : ℚ) (m : Int) (h : |q - m| < 1 / 2) : roundHalfEven q = m := by
  rw [abs_lt] at h
  obtain ⟨h1, h2⟩ := h
  unfold roundHalfEven
  rcases le_or_lt (m : ℚ) q with hq | hq
  · have hf : ⌊q⌋ = m := by
      rw [Int.floor_eq_iff]
      constructor <;> linarith
    rw [hf, if_pos (by linarith)]
  · have hf : ⌊q⌋ = m - 1 := by
      rw [Int.floor_eq_iff]
      push_cast
      constructor <;> linarith
    rw [hf]
    push_cast
    rw [if_neg (by linarith), if_pos (by linarith)]
    ring

/-- Evaluation of `binary32`: for `2 ^ k ≤ |q| < 2 ^ (k + 1)` in the normal
range, the result is `m * 2 ^ (k - 23)` for the integer `m` within a half of
`q / 2 ^ (k - 23)`. -/
theorem binary32_eq (q : ℚ) (k m : Int) (hk : -126 ≤ k) (h1 : 2 ^ k ≤ |q|)
    (h2 : |q| < 2 ^ (k + 1)) (hm : |q / 2 ^ (k - 23) - m| < 1 / 2) :
    binary32 q = m * 2 ^ (k - 23) := by
  have hpos : 0 < |q| := lt_of_lt_of_le (by positivity) h1
  have hq : q ≠ 0 := abs_pos.mp hpos
  have hlog : Int.log 2 |q| = k := by
    have a1 : k ≤ Int.log 2 |q| :=
      (Int.zpow_le_iff_le_log (by norm_num) hpos).mp (by exact_mod_cast h1)
    have a2 : Int.log 2 |q| < k + 1 :=
      (Int.lt_zpow_iff_log_lt (by norm_num) hpos).mp (by exact_mod_cast h2)
    omega
  unfold binary32
  rw [if_neg hq]
  simp only [hlog, max_eq_left hk]
  rw [roundHalfEven_eq _ m hm]

/-- The float value of `1.0 + 1 / 10000.0`. -/
theorem floatAdd_floatDiv_1 : floatAdd 1 (floatDiv 1 10000) = 8389447 / 8388608 := by
  have h1 : floatDiv 1 10000 = 13743895 * 2 ^ (-14 - 23 : Int) := by
    unfold floatDiv
    refine binary32_eq _ (-14) _ (by norm_num) ?_ ?_ ?_
    · norm_num [abs_of_pos, zpow_neg]
    · norm_num [abs_of_pos, zpow_neg]
    · norm_num [abs_lt, zpow_neg]
  rw [h1]
  unfold floatAdd
  rw [binary32_eq _ 0 8389447 (by norm_num) ?_ ?_ ?_]
  · norm_num [zpow_neg]
  · norm_num [abs_of_pos, zpow_neg]
  · norm_num [abs_of_pos, zpow_neg]
  · norm_num [abs_lt, zpow_neg]

/-- A tick in one of the three progressive edit states with UP or DOWN held
keeps the state and the mount store and only calls `mount.delay`. -/
theorem tick_progressive_held (cfg : Config) (inp : TickInput) (s : Sys)
    (hs : s.calState = RA_STEP_CALIBRATION ∨ s.calState = DEC_STEP_CALIBRATION ∨
      s.calState = BACKLASH_CALIBRATION)
    (hh : inp.currentState = .btnUP ∨ inp.currentState = .btnDOWN) :
    (tick cfg inp s).calState = s.calState ∧ (tick cfg inp s).mount = s.mount ∧
      (tick cfg inp s).out = s.out ++ [.delay s.calDelay] := by
  rcases hs with hs | hs | hs <;> rcases hh with hh | hh <;>
    simp [tick, processCalibrationKeys, continuousPass, checkProgressiveUpDown, shrinkDelay,
      mountDelay, emit, hs, hh]

/-- A tick in one of the three progressive edit states with neither UP nor DOWN
held and a RIGHT edge goes to the matching highlight state, keeps the mount
store and only calls `lcdMenu.setNextActive`. -/
theorem tick_progressive_right (cfg : Config) (inp : TickInput) (s : Sys)
    (hs : s.calState = RA_STEP_CALIBRATION ∨ s.calState = DEC_STEP_CALIBRATION ∨
      s.calState = BACKLASH_CALIBRATION)
    (hu : inp.currentState ≠ .btnUP) (hd : inp.currentState ≠ .btnDOWN)
    (hk : inp.keyChanged = some .btnRIGHT) :
    (tick cfg inp s).calState + 13 = s.calState ∧ (tick cfg inp s).mount = s.mount ∧
      (tick cfg inp s).out = s.out ++ [.lcdSetNextActive] := by
  rcases hs with hs | hs | hs <;>
    simp [tick, processCalibrationKeys, continuousPass, checkProgressiveUpDown, dispatchKey,
      lcdSetNextActive, emit, hs, hu, hd, hk]

theorem runTicks_progressive_held (cfg : Config) (inps : List TickInput) :
    ∀ s : Sys,
      (s.calState = RA_STEP_CALIBRATION ∨ s.calState = DEC_STEP_CALIBRATION ∨
        s.calState = BACKLASH_CALIBRATION) →
      (∀ i ∈ inps, i.currentState = .btnUP ∨ i.currentState = .btnDOWN) →
      (runTicks cfg inps s).calState = s.calState ∧ (runTicks cfg inps s).mount = s.mount ∧
        ∃ extra, (runTicks cfg inps s).out = s.out ++ extra ∧ ∀ c ∈ extra, c.isSetter = false := by
  induction inps with
  | nil => intro s _ _; exact ⟨rfl, rfl, [], by simp [runTicks], by simp⟩
  | cons i rest ih =>
    intro s hs hall
    have h1 := tick_progressive_held cfg i s hs (hall i (by simp))
    have hs1 : (tick cfg i s).calState = RA_STEP_CALIBRATION ∨
        (tick cfg i s).calState = DEC_STEP_CALIBRATION ∨
        (tick cfg i s).calState = BACKLASH_CALIBRATION := by rw [h1.1]; exact hs
    obtain ⟨hc, hm, extra, ho, hx⟩ := ih (tick cfg i s) hs1 (fun j hj => hall j (by simp [hj]))
    refine ⟨?_, ?_, Cmd.delay s.calDelay :: extra, ?_, ?_⟩
    · simpa [runTicks, h1.1] using hc
    · simpa [runTicks, h1.2.1] using hm
    · have : runTicks cfg (i :: rest) s = runTicks cfg rest (tick cfg i s) := rfl
      rw [this, ho, h1.2.2]; simp
    · intro c hcm
      rcases List.mem_cons.mp hcm with rfl | hcm
      · rfl
      · exact hx c hcm

theorem runTicks_append (cfg : Config) (a b : List TickInput) (s : Sys) :
    runTicks cfg (a ++ b) s = runTicks cfg b (runTicks cfg a s) := by
  simp [runTicks, List.foldl_append]

/-- C1: in RaStepsEdit, DecStepsEdit and BacklashEdit, any sequence of ticks with
UP or DOWN held followed by a tick with no direction key held and a RIGHT key
edge leaves the whole mount store as it was, makes no call of a mount setter,
and ends in the matching highlight state. -/
theorem C1_right_exit_discards (cfg : Config) (inps : List TickInput) (last : TickInput) (s : Sys)
    (hs : s.calState = RA_STEP_CALIBRATION ∨ s.calState = DEC_STEP_CALIBRATION ∨
      s.calState = BACKLASH_CALIBRATION)
    (hheld : ∀ i ∈ inps, i.currentState = .btnUP ∨ i.currentState = .btnDOWN)
    (hu : last.currentState ≠ .btnUP) (hd : last.currentState ≠ .btnDOWN)
    (hk : last.keyChanged = some .btnRIGHT) :
    (runTicks cfg (inps ++ [last]) s).mount = s.mount ∧
    (∃ extra, (runTicks cfg (inps ++ [last]) s).out = s.out ++ extra ∧
      ∀ c ∈ extra, c.isSetter = false) ∧
    (s.calState = RA_STEP_CALIBRATION →
      (runTicks cfg (inps ++ [last]) s).calState = HIGHLIGHT_RA_STEPS) ∧
    (s.calState = DEC_STEP_CALIBRATION →
      (runTicks cfg (inps ++ [last]) s).calState = HIGHLIGHT_DEC_STEPS) ∧
    (s.calState = BACKLASH_CALIBRATION →
      (runTicks cfg (inps ++ [last]) s).calState = HIGHLIGHT_BACKLASH_STEPS) := by
  obtain ⟨hc, hm, extra, ho, hx⟩ := runTicks_progressive_held cfg inps s hs hheld
  have hs1 : (runTicks cfg inps s).calState = RA_STEP_CALIBRATION ∨
      (runTicks cfg inps s).calState = DEC_STEP_CALIBRATION ∨
      (runTicks cfg inps s).calState = BACKLASH_CALIBRATION := by rw [hc]; exact hs
  obtain ⟨tc, tm, tout⟩ := tick_progressive_right cfg last (runTicks cfg inps s) hs1 hu hd hk
  have hrun : runTicks cfg (inps ++ [last]) s = tick cfg last (runTicks cfg inps s) := by
    rw [runTicks_append]; rfl
  rw [hrun]
  refine ⟨by rw [tm, hm], ⟨extra ++ [Cmd.lcdSetNextActive], ?_, ?_⟩, ?_, ?_, ?_⟩
  · rw [tout, ho]; simp
  · intro c hcm
    rcases List.mem_append.mp hcm with h | h
    · exact hx c h
    · simp at h; subst h; rfl
  · intro h; rw [hc, h] at tc; simp only [RA_STEP_CALIBRATION, HIGHLIGHT_RA_STEPS] at *; omega
  · intro h; rw [hc, h] at tc; simp only [DEC_STEP_CALIBRATION, HIGHLIGHT_DEC_STEPS] at *; omega
  · intro h; rw [hc, h] at tc
    simp only [BACKLASH_CALIBRATION, HIGHLIGHT_BACKLASH_STEPS] at *; omega

/-- Witness of C1 in RaStepsEdit: UP, UP, DOWN held, then RIGHT. -/
theorem C1_right_exit_discards_witness :
    (exSys RA_STEP_CALIBRATION).calState = RA_STEP_CALIBRATION ∧
    (edgeInput .btnRIGHT).keyChanged = some .btnRIGHT ∧
    (runTicks exConfig ([heldInput .btnUP, heldInput .btnUP, heldInput .btnDOWN] ++
      [edgeInput .btnRIGHT]) (exSys RA_STEP_CALIBRATION)).mount = exMount ∧
    (runTicks exConfig ([heldInput .btnUP, heldInput .btnUP, heldInput .btnDOWN] ++
      [edgeInput .btnRIGHT]) (exSys RA_STEP_CALIBRATION)).calState = HIGHLIGHT_RA_STEPS :=
  have h := C1_right_exit_discards exConfig
    [heldInput .btnUP, heldInput .btnUP, heldInput .btnDOWN] (edgeInput .btnRIGHT)
    (exSys RA_STEP_CALIBRATION) (Or.inl rfl) (by decide) (by decide) (by decide) rfl
  ⟨rfl, rfl, h.1, h.2.2.1 rfl⟩

/-- C2: in RaStepsEdit, DecStepsEdit and BacklashEdit, a tick with no direction
key held and a SELECT key edge makes exactly one setter call, the matching one
with the current working value (followed by the confirmation line and the
500 ms wait), after which the stored value equals the working value, and the
state is the matching highlight state. -/
theorem C2_select_exit_commits (cfg : Config) (inp : TickInput) (s : Sys)
    (hu : inp.currentState ≠ .btnUP) (hd : inp.currentState ≠ .btnDOWN)
    (hk : inp.keyChanged = some .btnSELECT) :
    (s.calState = RA_STEP_CALIBRATION →
      (tick cfg inp s).out = s.out ++ [.setStepsPerDegree .RA_STEPS s.RAStepsPerDegree,
        .lcdPrintMenu "RA steps stored", .delay 500] ∧
      (tick cfg inp s).mount.getStepsPerDegree .RA_STEPS = s.RAStepsPerDegree ∧
      (tick cfg inp s).RAStepsPerDegree = s.RAStepsPerDegree ∧
      (tick cfg inp s).calState = HIGHLIGHT_RA_STEPS) ∧
    (s.calState = DEC_STEP_CALIBRATION →
      (tick cfg inp s).out = s.out ++ [.setStepsPerDegree .DEC_STEPS s.DECStepsPerDegree,
        .lcdPrintMenu "DEC steps stored.", .delay 500] ∧
      (tick cfg inp s).mount.getStepsPerDegree .DEC_STEPS = s.DECStepsPerDegree ∧
      (tick cfg inp s).DECStepsPerDegree = s.DECStepsPerDegree ∧
      (tick cfg inp s).calState = HIGHLIGHT_DEC_STEPS) ∧
    (s.calState = BACKLASH_CALIBRATION →
      (tick cfg inp s).out = s.out ++ [.setBacklashCorrection s.BacklashSteps,
        .lcdPrintMenu "Backlash stored.", .delay 500] ∧
      (tick cfg inp s).mount.backlashCorrection = s.BacklashSteps ∧
      (tick cfg inp s).BacklashSteps = s.BacklashSteps ∧
      (tick cfg inp s).calState = HIGHLIGHT_BACKLASH_STEPS) := by
  refine ⟨?_, ?_, ?_⟩ <;> intro hs <;>
    simp [tick, processCalibrationKeys, continuousPass, checkProgressiveUpDown, dispatchKey,
      mountSetStepsPerDegree, mountSetBacklashCorrection, lcdPrintMenu, mountDelay, emit,
      Mount.withStepsPerDegree, Mount.getStepsPerDegree, hs, hu, hd, hk]

/-- Witness of C2 in BacklashEdit with working value 21 over a stored 16. -/
theorem C2_select_exit_commits_witness :
    (edgeInput .btnSELECT).currentState ≠ .btnUP ∧
    (edgeInput .btnSELECT).currentState ≠ .btnDOWN ∧
    (edgeInput .btnSELECT).keyChanged = some .btnSELECT ∧
    (tick exConfig (edgeInput .btnSELECT)
      { exSys BACKLASH_CALIBRATION with BacklashSteps := 21 }).mount.backlashCorrection = 21 :=
  ⟨by decide, by decide, rfl,
    ((C2_select_exit_commits exConfig (edgeInput .btnSELECT)
      { exSys BACKLASH_CALIBRATION with BacklashSteps := 21 }
      (by decide) (by decide) rfl).2.2 rfl).2.1⟩

/-- One SpeedEdit tick with UP held: the state stays SpeedEdit and the working
value goes up by one exactly when it is below 32760. -/
theorem tick_speed_up (cfg : Config) (inp : TickInput) (s : Sys)
    (hs : s.calState = SPEED_CALIBRATION) (hh : inp.currentState = .btnUP) :
    (tick cfg inp s).calState = SPEED_CALIBRATION ∧
      (tick cfg inp s).SpeedCalibration =
        if s.SpeedCalibration < 32760 then s.SpeedCalibration + 1 else s.SpeedCalibration := by
  by_cases hlt : s.SpeedCalibration < 32760 <;>
    simp [tick, processCalibrationKeys, continuousPass, speedCalibrationHeld, shrinkDelay,
      mountSetSpeedCalibration, mountDelay, emit, hs, hh, hlt]

/-- One SpeedEdit tick with DOWN held: the state stays SpeedEdit and the working
value goes down by one exactly when it is above -32760. -/
theorem tick_speed_down (cfg : Config) (inp : TickInput) (s : Sys)
    (hs : s.calState = SPEED_CALIBRATION) (hh : inp.currentState = .btnDOWN) :
    (tick cfg inp s).calState = SPEED_CALIBRATION ∧
      (tick cfg inp s).SpeedCalibration =
        if s.SpeedCalibration > -32760 then s.SpeedCalibration - 1 else s.SpeedCalibration := by
  by_cases hlt : s.SpeedCalibration > -32760 <;>
    simp [tick, processCalibrationKeys, continuousPass, speedCalibrationHeld, shrinkDelay,
      mountSetSpeedCalibration, mountDelay, emit, hs, hh, hlt]

theorem runTicks_cons (cfg : Config) (i : TickInput) (rest : List TickInput) (s : Sys) :
    runTicks cfg (i :: rest) s = runTicks cfg rest (tick cfg i s) := rfl

theorem runTicks_speed_up (cfg : Config) (inps : List TickInput) :
    ∀ s : Sys, s.calState = SPEED_CALIBRATION → (∀ i ∈ inps, i.currentState = .btnUP) →
      (s.SpeedCalibration < 32761 → (runTicks cfg inps s).SpeedCalibration < 32761) ∧
      ((∃ z : Int, s.SpeedCalibration = z ∧ z ≤ 32760) →
        (runTicks cfg inps s).SpeedCalibration ≤ 32760) := by
  induction inps with
  | nil =>
    intro s _ _
    refine ⟨fun h => h, ?_⟩
    rintro ⟨z, hz, hle⟩
    show s.SpeedCalibration ≤ 32760
    rw [hz]; exact_mod_cast hle
  | cons i rest ih =>
    intro s hs hall
    obtain ⟨hc, hv⟩ := tick_speed_up cfg i s hs (hall i (by simp))
    obtain ⟨ih1, ih2⟩ := ih (tick cfg i s) hc (fun j hj => hall j (by simp [hj]))
    rw [runTicks_cons]
    refine ⟨fun h => ih1 ?_, ?_⟩
    · rw [hv]; split_ifs with hlt <;> linarith
    · rintro ⟨z, hz, hle⟩
      apply ih2
      rw [hv, hz]
      by_cases hlt : (z : ℚ) < 32760
      · refine ⟨z + 1, by simp [hlt], ?_⟩
        have : z < 32760 := by exact_mod_cast hlt
        omega
      · exact ⟨z, by simp [hlt], hle⟩

theorem runTicks_speed_down (cfg : Config) (inps : List TickInput) :
    ∀ s : Sys, s.calState = SPEED_CALIBRATION → (∀ i ∈ inps, i.currentState = .btnDOWN) →
      (-32761 < s.SpeedCalibration → -32761 < (runTicks cfg inps s).SpeedCalibration) ∧
      ((∃ z : Int, s.SpeedCalibration = z ∧ -32760 ≤ z) →
        -32760 ≤ (runTicks cfg inps s).SpeedCalibration) := by
  induction inps with
  | nil =>
    intro s _ _
    refine ⟨fun h => h, ?_⟩
    rintro ⟨z, hz, hle⟩
    show -32760 ≤ s.SpeedCalibration
    rw [hz]; exact_mod_cast hle
  | cons i rest ih =>
    intro s hs hall
    obtain ⟨hc, hv⟩ := tick_speed_down cfg i s hs (hall i (by simp))
    obtain ⟨ih1, ih2⟩ := ih (tick cfg i s) hc (fun j hj => hall j (by simp [hj]))
    rw [runTicks_cons]
    refine ⟨fun h => ih1 ?_, ?_⟩
    · rw [hv]; split_ifs with hlt <;> linarith
    · rintro ⟨z, hz, hle⟩
      apply ih2
      rw [hv, hz]
      by_cases hlt : (z : ℚ) > -32760
      · refine ⟨z - 1, by simp [hlt], ?_⟩
        have : z > -32760 := by exact_mod_cast hlt
        omega
      · exact ⟨z, by simp [hlt], hle⟩

/-- C4 as stated fails: the working value 32759.5 lies in [-32760, 32760], and
one SpeedEdit tick with UP held takes it to 32760.5, above 32760. -/
theorem C4_counterexample :
    (speedEditAt 32759.5).calState = SPEED_CALIBRATION ∧
    (speedEditAt 32759.5).SpeedCalibration = 32759.5 ∧
    (-32760 : ℚ) ≤ 32759.5 ∧ (32759.5 : ℚ) ≤ 32760 ∧
    (heldInput .btnUP).currentState = .btnUP ∧
    (runTicks exConfig [heldInput .btnUP] (speedEditAt 32759.5)).SpeedCalibration = 32760.5 ∧
    (32760 : ℚ) < 32760.5 := by
  refine ⟨rfl, rfl, by norm_num, by norm_num, rfl, ?_, by norm_num⟩
  have h := (tick_speed_up exConfig (heldInput .btnUP) (speedEditAt 32759.5) rfl rfl).2
  show (tick exConfig (heldInput .btnUP) (speedEditAt 32759.5)).SpeedCalibration = 32760.5
  rw [h]
  norm_num [speedEditAt]

/-- C4, amended: from a working value in [-32760, 32760], any number of
SpeedEdit ticks with UP held keeps the working value below 32761, and at most
32760 when the starting value is a whole number; any number of ticks with DOWN
held keeps it above -32761, and at least -32760 when the starting value is a
whole number. -/
theorem C4_speed_guard (cfg : Config) (inps : List TickInput) (s : Sys)
    (hs : s.calState = SPEED_CALIBRATION)
    (hlo : -32760 ≤ s.SpeedCalibration) (hhi : s.SpeedCalibration ≤ 32760) :
    ((∀ i ∈ inps, i.currentState = .btnUP) →
      (runTicks cfg inps s).SpeedCalibration < 32761 ∧
      ((∃ z : Int, s.SpeedCalibration = z) → (runTicks cfg inps s).SpeedCalibration ≤ 32760)) ∧
    ((∀ i ∈ inps, i.currentState = .btnDOWN) →
      -32761 < (runTicks cfg inps s).SpeedCalibration ∧
      ((∃ z : Int, s.SpeedCalibration = z) → -32760 ≤ (runTicks cfg inps s).SpeedCalibration)) := by
  constructor
  · intro hall
    obtain ⟨h1, h2⟩ := runTicks_speed_up cfg inps s hs hall
    refine ⟨h1 (by linarith), ?_⟩
    rintro ⟨z, hz⟩
    exact h2 ⟨z, hz, by rw [hz] at hhi; exact_mod_cast hhi⟩
  · intro hall
    obtain ⟨h1, h2⟩ := runTicks_speed_down cfg inps s hs hall
    refine ⟨h1 (by linarith), ?_⟩
    rintro ⟨z, hz⟩
    exact h2 ⟨z, hz, by rw [hz] at hlo; exact_mod_cast hlo⟩

/-- Witness of the amended C4: three UP ticks from the working value 32759.5. -/
theorem C4_speed_guard_witness :
    (speedEditAt 32759.5).calState = SPEED_CALIBRATION ∧
    (-32760 : ℚ) ≤ 32759.5 ∧ (32759.5 : ℚ) ≤ 32760 ∧
    (runTicks exConfig [heldInput .btnUP, heldInput .btnUP, heldInput .btnUP]
      (speedEditAt 32759.5)).SpeedCalibration < 32761 :=
  ⟨rfl, by norm_num, by norm_num,
    ((C4_speed_guard exConfig [heldInput .btnUP, heldInput .btnUP, heldInput .btnUP]
      (speedEditAt 32759.5) rfl
      (by show (-32760 : ℚ) ≤ 32759.5; norm_num)
      (by show (32759.5 : ℚ) ≤ 32760; norm_num)).1 (by decide)).1⟩


theorem truncToInt_intCast (z : Int) : truncToInt (z : ℚ) = z := by
  unfold truncToInt
  split_ifs <;> simp

/-- The delay update `max(fl, k * c)` truncated to `int`, for a positive whole
floor `fl` and a factor `0 < k < 1`: above the floor the delay goes strictly
down without passing the floor; at or below the floor the result is the floor. -/
theorem shrink_bounds (fl c : Int) (k : ℚ) (hfl : 0 < fl) (hk0 : 0 < k) (hk1 : k < 1) :
    (fl < c → fl ≤ truncToInt (arduinoMax fl (k * c)) ∧ truncToInt (arduinoMax fl (k * c)) < c) ∧
    (c ≤ fl → truncToInt (arduinoMax fl (k * c)) = fl) := by
  have hflq : (0 : ℚ) < fl := by exact_mod_cast hfl
  constructor
  · intro hc
    have hcq : (fl : ℚ) < c := by exact_mod_cast hc
    have hcpos : (0 : ℚ) < c := lt_trans hflq hcq
    have hkc : k * c < c := by nlinarith
    unfold arduinoMax
    split_ifs with h
    · rw [truncToInt_intCast]; exact ⟨le_refl _, hc⟩
    · have hge : (fl : ℚ) ≤ k * c := not_lt.mp h
      have hnn : (0 : ℚ) ≤ k * c := le_trans hflq.le hge
      unfold truncToInt
      rw [if_pos hnn]
      refine ⟨Int.le_floor.mpr hge, ?_⟩
      have h1 : ((⌊k * (c : ℚ)⌋ : Int) : ℚ) ≤ k * c := Int.floor_le _
      have h2 : ((⌊k * (c : ℚ)⌋ : Int) : ℚ) < c := lt_of_le_of_lt h1 hkc
      exact_mod_cast h2
  · intro hc
    have hcq : (c : ℚ) ≤ fl := by exact_mod_cast hc
    have hlt : k * c < fl := by
      rcases le_or_lt (c : ℚ) 0 with h0 | h0
      · have : k * c ≤ 0 := mul_nonpos_of_nonneg_of_nonpos hk0.le h0
        linarith
      · have : k * c < c := by nlinarith
        linarith
    unfold arduinoMax
    rw [if_pos hlt, truncToInt_intCast]


/-- With a non-negative delay the update of the progressive edit states is
`max 25 (94 * c / 100)` in integer arithmetic. -/
theorem shrink25_int (c : Int) (hc : 0 ≤ c) :
    truncToInt (arduinoMax 25 (0.94 * (c : ℚ))) = max 25 (94 * c / 100) := by
  have hq : (0.94 : ℚ) * (c : ℚ) = ((94 * c : Int) : ℚ) / ((100 : Nat) : ℚ) := by
    push_cast; ring
  have hfloor : ⌊(0.94 : ℚ) * (c : ℚ)⌋ = 94 * c / 100 := by
    rw [hq, Rat.floor_intCast_div_natCast]; rfl
  have hnn : (0 : ℚ) ≤ 0.94 * (c : ℚ) := by
    have : (0 : ℚ) ≤ c := by exact_mod_cast hc
    nlinarith
  unfold arduinoMax
  split_ifs with h
  · have h25 : truncToInt (25 : ℚ) = 25 := by
      have := truncToInt_intCast 25
      simpa using this
    rw [h25]
    have : 94 * c / 100 ≤ 25 := by
      have hlt : (94 * c : ℚ) < 2500 := by linarith
      have hlt2 : 94 * c < 2500 := by exact_mod_cast hlt
      omega
    omega
  · unfold truncToInt
    rw [if_pos hnn, hfloor]
    have hge : (2500 : ℚ) ≤ 94 * c := by
      have := not_lt.mp h
      linarith
    have hge2 : 2500 ≤ 94 * c := by exact_mod_cast hge
    omega

/-- The delay after a tick of a progressive edit state with UP or DOWN held. -/
theorem tick_progressive_delay (cfg : Config) (inp : TickInput) (s : Sys)
    (hs : s.calState = RA_STEP_CALIBRATION ∨ s.calState = DEC_STEP_CALIBRATION ∨
      s.calState = BACKLASH_CALIBRATION)
    (hh : inp.currentState = .btnUP ∨ inp.currentState = .btnDOWN) :
    (tick cfg inp s).calDelay = truncToInt (arduinoMax 25 (0.94 * (s.calDelay : ℚ))) := by
  rcases hs with hs | hs | hs <;> rcases hh with hh | hh <;>
    simp [tick, processCalibrationKeys, continuousPass, checkProgressiveUpDown, shrinkDelay,
      mountDelay, emit, hs, hh]

/-- The delay after a SpeedEdit tick with UP or DOWN held. -/
theorem tick_speed_delay (cfg : Config) (inp : TickInput) (s : Sys)
    (hs : s.calState = SPEED_CALIBRATION)
    (hh : inp.currentState = .btnUP ∨ inp.currentState = .btnDOWN) :
    (tick cfg inp s).calDelay = truncToInt (arduinoMax 5 (0.96 * (s.calDelay : ℚ))) := by
  rcases hh with hh | hh
  · by_cases hlt : s.SpeedCalibration < 32760 <;>
      simp [tick, processCalibrationKeys, continuousPass, speedCalibrationHeld, shrinkDelay,
        mountSetSpeedCalibration, mountDelay, emit, hs, hh, hlt]
  · by_cases hlt : s.SpeedCalibration > -32760 <;>
      simp [tick, processCalibrationKeys, continuousPass, speedCalibrationHeld, shrinkDelay,
        mountSetSpeedCalibration, mountDelay, emit, hs, hh, hlt]

/-- A tick of an edit state in which neither UP nor DOWN is held sets the delay to 150. -/
theorem tick_edit_idle_delay (cfg : Config) (inp : TickInput) (s : Sys)
    (hs : s.calState = SPEED_CALIBRATION ∨ s.calState = RA_STEP_CALIBRATION ∨
      s.calState = DEC_STEP_CALIBRATION ∨ s.calState = BACKLASH_CALIBRATION)
    (hu : inp.currentState ≠ .btnUP) (hd : inp.currentState ≠ .btnDOWN) :
    (tick cfg inp s).calDelay = 150 := by
  rcases hk : inp.keyChanged with _ | key
  · rcases hs with hs | hs | hs | hs <;>
      simp [tick, processCalibrationKeys, continuousPass, speedCalibrationHeld,
        checkProgressiveUpDown, hs, hu, hd, hk]
  · rcases hs with hs | hs | hs | hs <;> cases key <;>
      simp [tick, processCalibrationKeys, continuousPass, speedCalibrationHeld,
        checkProgressiveUpDown, dispatchKey, mountSetSpeedCalibration, mountSetStepsPerDegree,
        mountSetBacklashCorrection, lcdPrintMenu, lcdSetNextActive, mountDelay, emit,
        hs, hu, hd, hk]


/-- Holding UP in RaStepsEdit for `n` ticks: the state stays RaStepsEdit and the
delay is the `n`-fold integer update of the starting delay. -/
theorem runTicks_ra_held_delay (cfg : Config) (n : Nat) :
    ∀ s : Sys, s.calState = RA_STEP_CALIBRATION → 0 ≤ s.calDelay →
      (runTicks cfg (List.replicate n (heldInput .btnUP)) s).calState = RA_STEP_CALIBRATION ∧
      (runTicks cfg (List.replicate n (heldInput .btnUP)) s).calDelay =
        (fun c : Int => max 25 (94 * c / 100))^[n] s.calDelay := by
  induction n with
  | zero => intro s hs _; exact ⟨hs, rfl⟩
  | succ n ih =>
    intro s hs hc
    have h1 := tick_progressive_held cfg (heldInput .btnUP) s (Or.inl hs) (Or.inl rfl)
    have h2 := tick_progressive_delay cfg (heldInput .btnUP) s (Or.inl hs) (Or.inl rfl)
    rw [shrink25_int _ hc] at h2
    have hs1 : (tick cfg (heldInput .btnUP) s).calState = RA_STEP_CALIBRATION := by
      rw [h1.1]; exact hs
    have hc1 : 0 ≤ (tick cfg (heldInput .btnUP) s).calDelay := by rw [h2]; omega
    obtain ⟨ihs, ihd⟩ := ih (tick cfg (heldInput .btnUP) s) hs1 hc1
    rw [List.replicate_succ, runTicks_cons]
    refine ⟨ihs, ?_⟩
    rw [ihd, h2, Function.iterate_succ_apply]

/-- C5 as stated fails at the floor. Holding UP in RaStepsEdit from the initial
delay 150 brings the delay to 25 after 26 ticks, and the next tick with UP
held leaves it at 25: not strictly less than before. -/
theorem C5_counterexample :
    (runTicks exConfig (List.replicate 26 (heldInput .btnUP))
      (exSys RA_STEP_CALIBRATION)).calState = RA_STEP_CALIBRATION ∧
    (runTicks exConfig (List.replicate 26 (heldInput .btnUP))
      (exSys RA_STEP_CALIBRATION)).calDelay = 25 ∧
    ¬ ((tick exConfig (heldInput .btnUP)
        (runTicks exConfig (List.replicate 26 (heldInput .btnUP))
          (exSys RA_STEP_CALIBRATION))).calDelay <
      (runTicks exConfig (List.replicate 26 (heldInput .btnUP))
        (exSys RA_STEP_CALIBRATION)).calDelay) := by
  obtain ⟨hs, hd⟩ := runTicks_ra_held_delay exConfig 26 (exSys RA_STEP_CALIBRATION) rfl
    (by decide)
  have hd25 : (runTicks exConfig (List.replicate 26 (heldInput .btnUP))
      (exSys RA_STEP_CALIBRATION)).calDelay = 25 := by
    have h150 : (exSys RA_STEP_CALIBRATION).calDelay = 150 := rfl
    rw [hd, h150]
    simp only [Function.iterate_succ, Function.iterate_zero, Function.comp, id]
    norm_num
  refine ⟨hs, hd25, ?_⟩
  rw [tick_progressive_delay exConfig (heldInput .btnUP) _ (Or.inl hs) (Or.inl rfl), hd25,
    shrink25_int 25 (by decide)]
  decide

/-- C5, amended: in an edit state with UP or DOWN held, the delay after the tick
is `max(floor, factor * delay)` truncated (floor 5, factor 0.96 in SpeedEdit;
floor 25, factor 0.94 in the other three); it is strictly less than before and
not below the floor when the delay was above the floor, and it is the floor
when the delay was at (or below) the floor. In an edit state with neither UP nor DOWN held
the delay after the tick is exactly 150. -/
theorem C5_delay_decreases_to_floor (cfg : Config) (inp : TickInput) (s : Sys) :
    (s.calState = SPEED_CALIBRATION →
      (inp.currentState = .btnUP ∨ inp.currentState = .btnDOWN) →
      (tick cfg inp s).calDelay = truncToInt (arduinoMax 5 (0.96 * (s.calDelay : ℚ))) ∧
      (5 < s.calDelay → 5 ≤ (tick cfg inp s).calDelay ∧ (tick cfg inp s).calDelay < s.calDelay) ∧
      (s.calDelay ≤ 5 → (tick cfg inp s).calDelay = 5)) ∧
    ((s.calState = RA_STEP_CALIBRATION ∨ s.calState = DEC_STEP_CALIBRATION ∨
        s.calState = BACKLASH_CALIBRATION) →
      (inp.currentState = .btnUP ∨ inp.currentState = .btnDOWN) →
      (tick cfg inp s).calDelay = truncToInt (arduinoMax 25 (0.94 * (s.calDelay : ℚ))) ∧
      (25 < s.calDelay → 25 ≤ (tick cfg inp s).calDelay ∧ (tick cfg inp s).calDelay < s.calDelay) ∧
      (s.calDelay ≤ 25 → (tick cfg inp s).calDelay = 25)) ∧
    ((s.calState = SPEED_CALIBRATION ∨ s.calState = RA_STEP_CALIBRATION ∨
        s.calState = DEC_STEP_CALIBRATION ∨ s.calState = BACKLASH_CALIBRATION) →
      inp.currentState ≠ .btnUP → inp.currentState ≠ .btnDOWN →
      (tick cfg inp s).calDelay = 150) := by
  refine ⟨?_, ?_, tick_edit_idle_delay cfg inp s⟩
  · intro hs hh
    have h := tick_speed_delay cfg inp s hs hh
    have hb := shrink_bounds 5 s.calDelay 0.96 (by decide) (by norm_num) (by norm_num)
    simp only [Int.cast_ofNat] at hb
    rw [h]
    exact ⟨rfl, hb.1, hb.2⟩
  · intro hs hh
    have h := tick_progressive_delay cfg inp s hs hh
    have hb := shrink_bounds 25 s.calDelay 0.94 (by decide) (by norm_num) (by norm_num)
    simp only [Int.cast_ofNat] at hb
    rw [h]
    exact ⟨rfl, hb.1, hb.2⟩

/-- Witness of the amended C5: SpeedEdit, DOWN held, delay 150. -/
theorem C5_delay_decreases_to_floor_witness :
    (speedEditAt 0).calState = SPEED_CALIBRATION ∧
    (heldInput .btnDOWN).currentState = .btnDOWN ∧
    (5 : Int) < (speedEditAt 0).calDelay ∧
    (tick exConfig (heldInput .btnDOWN) (speedEditAt 0)).calDelay < (speedEditAt 0).calDelay :=
  ⟨rfl, rfl, by decide,
    (((C5_delay_decreases_to_floor exConfig (heldInput .btnDOWN) (speedEditAt 0)).1 rfl
      (Or.inr rfl)).2.1 (by decide)).2⟩

/-! ### Drift alignment -/

/-- The drift branch appends `driftTrace` of the committed duration to the calls
and assigns the Drift highlight state; nothing else changes. -/
theorem driftCalibrationRunning_eq (s : Sys) :
    driftCalibrationRunning s =
      { s with out := s.out ++ driftTrace s.driftDuration, calState := HIGHLIGHT_DRIFT } := by
  simp [driftCalibrationRunning, driftTrace, lcdSetCursor, lcdPrintMenu, mountDelay, emit]

/-- A tick that begins in DriftRunning: the drift branch, one read of the key
edge, and the Drift highlight case for a delivered key. -/
theorem processCalibrationKeys_drift (cfg : Config) (inp : TickInput) (s : Sys)
    (hs : s.calState = DRIFT_CALIBRATION_RUNNING) :
    processCalibrationKeys cfg inp s =
      match inp.keyChanged with
      | some key => (true, highlightCase key DRIFT_CALIBRATION_WAIT HIGHLIGHT_POLAR
          { s with out := s.out ++ driftTrace s.driftDuration, calState := HIGHLIGHT_DRIFT,
                   keyChangedCalls := s.keyChangedCalls + 1 })
      | none => (false,
          { s with out := s.out ++ driftTrace s.driftDuration, calState := HIGHLIGHT_DRIFT,
                   keyChangedCalls := s.keyChangedCalls + 1 }) := by
  cases hk : inp.keyChanged <;>
    simp [processCalibrationKeys, continuousPass, driftCalibrationRunning_eq, dispatchKey, hs, hk]

/-- The calls of the Drift highlight case: RIGHT advances the display, every
other key makes no call. -/
theorem highlightCase_out (key : Button) (a b : Nat) (s : Sys) :
    (highlightCase key a b s).out =
      s.out ++ (if key = .btnRIGHT then [.lcdSetNextActive] else []) := by
  cases key <;> simp [highlightCase, gotoNextHighlightState, lcdSetNextActive, emit] <;>
    (repeat (split_ifs <;> try rfl))

/-- The calls of a tick that begins in DriftRunning. -/
theorem tick_drift_out (cfg : Config) (inp : TickInput) (s : Sys)
    (hs : s.calState = DRIFT_CALIBRATION_RUNNING) :
    (tick cfg inp s).out = s.out ++ driftTrace s.driftDuration ++
      (if inp.keyChanged = some .btnRIGHT then [.lcdSetNextActive] else []) := by
  unfold tick
  rw [processCalibrationKeys_drift cfg inp s hs]
  cases hk : inp.keyChanged with
  | none => simp
  | some key => simp [highlightCase_out]

/-- C6: a tick that begins in DriftRunning issues the calls of `driftTrace d` for
the committed duration `d` (status line before each phase), followed only by a
display advance when a RIGHT edge is pending; the Mount Control calls of the
tick are exactly stop tracking, delay 1500, eastward phase with `d`, delay
1500, westward phase with `d`, delay 1500, phase (0, 0), start tracking. -/
theorem C6_drift_sequence (cfg : Config) (inp : TickInput) (s : Sys)
    (hs : s.calState = DRIFT_CALIBRATION_RUNNING) :
    (tick cfg inp s).out = s.out ++ driftTrace s.driftDuration ++
      (if inp.keyChanged = some .btnRIGHT then [.lcdSetNextActive] else []) ∧
    ((tick cfg inp s).out.drop s.out.length).filter Cmd.isMount =
      [ .stopSlewing .TRACKING, .delay 1500,
        .runDriftAlignmentPhase .EAST s.driftDuration, .delay 1500,
        .runDriftAlignmentPhase .WEST s.driftDuration, .delay 1500,
        .runDriftAlignmentPhase .zero 0, .startSlewing .TRACKING ] := by
  have h := tick_drift_out cfg inp s hs
  refine ⟨h, ?_⟩
  rw [h, List.append_assoc, List.drop_left]
  split_ifs <;> simp [driftTrace, Cmd.isMount]

/-- Witness of C6: committed duration 87. -/
theorem C6_drift_sequence_witness :
    (driftRunningAt 87).calState = DRIFT_CALIBRATION_RUNNING ∧
    ((tick exConfig (heldInput .btnNONE) (driftRunningAt 87)).out.drop
        (driftRunningAt 87).out.length).filter Cmd.isMount =
      [ .stopSlewing .TRACKING, .delay 1500,
        .runDriftAlignmentPhase .EAST 87, .delay 1500,
        .runDriftAlignmentPhase .WEST 87, .delay 1500,
        .runDriftAlignmentPhase .zero 0, .startSlewing .TRACKING ] :=
  ⟨rfl, (C6_drift_sequence exConfig (heldInput .btnNONE) (driftRunningAt 87) rfl).2⟩

/-- C7: in DriftWaitSelectDuration with selection index `i < 4`, a tick with a
SELECT key edge sets `driftDuration` to entry `i` of the table
27, 57, 87, 147, without truncation by the byte conversion, and ends in
DriftRunning. -/
theorem C7_select_commits_preset (cfg : Config) (inp : TickInput) (s : Sys)
    (hs : s.calState = DRIFT_CALIBRATION_WAIT) (hi : s.driftSubIndex < 4)
    (hk : inp.keyChanged = some .btnSELECT) :
    (tick cfg inp s).driftDuration = [27, 57, 87, 147].getD s.driftSubIndex 0 ∧
    ((tick cfg inp s).driftDuration : Int) = duration.getD s.driftSubIndex 0 ∧
    (tick cfg inp s).calState = DRIFT_CALIBRATION_RUNNING ∧
    (s.driftSubIndex = 2 → (tick cfg inp s).driftDuration = 87) := by
  have hd : (tick cfg inp s).driftDuration = toByte (duration.getD s.driftSubIndex 0) ∧
      (tick cfg inp s).calState = DRIFT_CALIBRATION_RUNNING := by
    simp [tick, processCalibrationKeys, continuousPass, dispatchKey, hs, hk]
  rw [hd.1]
  have h4 : s.driftSubIndex = 0 ∨ s.driftSubIndex = 1 ∨ s.driftSubIndex = 2 ∨
      s.driftSubIndex = 3 := by omega
  refine ⟨?_, ?_, hd.2, ?_⟩
  · rcases h4 with h | h | h | h <;> rw [h] <;> decide
  · rcases h4 with h | h | h | h <;> rw [h] <;> decide
  · intro h; rw [h]; decide

/-- Witness of C7: index 2 gives 87. -/
theorem C7_select_commits_preset_witness :
    (driftWaitAt 2).calState = DRIFT_CALIBRATION_WAIT ∧ (driftWaitAt 2).driftSubIndex < 4 ∧
    (edgeInput .btnSELECT).keyChanged = some .btnSELECT ∧
    (tick exConfig (edgeInput .btnSELECT) (driftWaitAt 2)).driftDuration = 87 :=
  ⟨rfl, by decide, rfl,
    (C7_select_commits_preset exConfig (edgeInput .btnSELECT) (driftWaitAt 2) rfl (by decide)
      rfl).2.2.2 rfl⟩

/-- C8 as stated fails: from the same DriftRunning state, a tick with a pending
DOWN edge returns true and ends in the RaSteps highlight state, while a tick
with no pending edge returns false and ends in the Drift highlight state. -/
theorem C8_counterexample :
    (driftRunningAt 87).calState = DRIFT_CALIBRATION_RUNNING ∧
    (processCalibrationKeys exConfig (edgeInput .btnDOWN) (driftRunningAt 87)).1 = true ∧
    (tick exConfig (edgeInput .btnDOWN) (driftRunningAt 87)).calState = HIGHLIGHT_RA_STEPS ∧
    (processCalibrationKeys exConfig (heldInput .btnNONE) (driftRunningAt 87)).1 = false ∧
    (tick exConfig (heldInput .btnNONE) (driftRunningAt 87)).calState = HIGHLIGHT_DRIFT := by
  refine ⟨rfl, ?_, ?_, ?_, ?_⟩ <;> decide

/-- C8, amended: a tick that begins in DriftRunning depends on the inputs only
through the pending key edge (the held button and the mount readings are not
consulted); it always issues the whole drift sequence first and then reads the
key edge once. With no edge pending it returns false, issues nothing else and
ends in the Drift highlight state. With an edge pending it returns true and
the key is handled by the Drift highlight case: DOWN ends in RaSteps, UP in
Speed, SELECT in DriftWaitSelectDuration, RIGHT in Polar, LEFT and the
no-button code in Drift. -/
theorem C8_drift_reads_only_edge (cfg : Config) (s : Sys)
    (hs : s.calState = DRIFT_CALIBRATION_RUNNING) :
    (∀ inp1 inp2 : TickInput, inp1.keyChanged = inp2.keyChanged →
      processCalibrationKeys cfg inp1 s = processCalibrationKeys cfg inp2 s) ∧
    (∀ inp : TickInput, ∃ extra,
      (tick cfg inp s).out = s.out ++ driftTrace s.driftDuration ++ extra) ∧
    (∀ inp : TickInput, (tick cfg inp s).keyChangedCalls = s.keyChangedCalls + 1) ∧
    (∀ inp : TickInput, inp.keyChanged = none →
      (processCalibrationKeys cfg inp s).1 = false ∧
      (tick cfg inp s).calState = HIGHLIGHT_DRIFT ∧
      (tick cfg inp s).out = s.out ++ driftTrace s.driftDuration) ∧
    (∀ (inp : TickInput) (key : Button), inp.keyChanged = some key →
      (processCalibrationKeys cfg inp s).1 = true ∧
      (tick cfg inp s).calState =
        match key with
        | .btnDOWN => HIGHLIGHT_RA_STEPS
        | .btnUP => HIGHLIGHT_SPEED
        | .btnSELECT => DRIFT_CALIBRATION_WAIT
        | .btnRIGHT => HIGHLIGHT_POLAR
        | .btnLEFT => HIGHLIGHT_DRIFT
        | .btnNONE => HIGHLIGHT_DRIFT) := by
  refine ⟨?_, ?_, ?_, ?_, ?_⟩
  · intro inp1 inp2 h
    rw [processCalibrationKeys_drift cfg inp1 s hs, processCalibrationKeys_drift cfg inp2 s hs, h]
  · intro inp
    exact ⟨_, tick_drift_out cfg inp s hs⟩
  · intro inp
    unfold tick
    rw [processCalibrationKeys_drift cfg inp s hs]
    rcases hk : inp.keyChanged with _ | key
    · rfl
    · cases key <;>
        simp [highlightCase, gotoNextHighlightState, lcdSetNextActive, emit, toByte, adjustWrap,
          Mount.getStepsPerDegree]
  · intro inp hk
    refine ⟨?_, ?_, ?_⟩
    · rw [processCalibrationKeys_drift cfg inp s hs, hk]
    · unfold tick; rw [processCalibrationKeys_drift cfg inp s hs, hk]
    · rw [tick_drift_out cfg inp s hs, hk]; simp
  · intro inp key hk
    refine ⟨?_, ?_⟩
    · rw [processCalibrationKeys_drift cfg inp s hs, hk]
    · unfold tick; rw [processCalibrationKeys_drift cfg inp s hs, hk]
      cases key <;>
        simp [highlightCase, gotoNextHighlightState, lcdSetNextActive, emit, toByte, adjustWrap,
          Mount.getStepsPerDegree]

/-- Witness of the amended C8: with no edge pending the tick from DriftRunning
ends in the Drift highlight state, whatever button is held. -/
theorem C8_drift_reads_only_edge_witness :
    (driftRunningAt 87).calState = DRIFT_CALIBRATION_RUNNING ∧
    (heldInput .btnSELECT).keyChanged = none ∧
    (tick exConfig (heldInput .btnSELECT) (driftRunningAt 87)).calState = HIGHLIGHT_DRIFT :=
  ⟨rfl, rfl,
    ((C8_drift_reads_only_edge exConfig (driftRunningAt 87) rfl).2.2.2.1
      (heldInput .btnSELECT) rfl).2.1⟩

/-! ### The cycle of highlight states -/

/-- A tick in a highlight state with a DOWN key edge goes to the next highlight
state, from the last one to the first. -/
theorem tick_highlight_down (cfg : Config) (inp : TickInput) (s : Sys)
    (h1 : HIGHLIGHT_FIRST ≤ s.calState) (h6 : s.calState ≤ HIGHLIGHT_LAST)
    (hk : inp.keyChanged = some .btnDOWN) :
    (tick cfg inp s).calState = s.calState % 6 + 1 := by
  have hc : s.calState = 1 ∨ s.calState = 2 ∨ s.calState = 3 ∨ s.calState = 4 ∨
      s.calState = 5 ∨ s.calState = 6 := by
    simp only [HIGHLIGHT_FIRST, HIGHLIGHT_LAST] at h1 h6; omega
  rcases hc with hc | hc | hc | hc | hc | hc <;>
    simp [tick, processCalibrationKeys, continuousPass, dispatchKey, highlightCase,
      gotoNextHighlightState, toByte, adjustWrap, hc, hk]

/-- A tick in a highlight state with an UP key edge goes to the previous
highlight state, from the first one to the last. -/
theorem tick_highlight_up (cfg : Config) (inp : TickInput) (s : Sys)
    (h1 : HIGHLIGHT_FIRST ≤ s.calState) (h6 : s.calState ≤ HIGHLIGHT_LAST)
    (hk : inp.keyChanged = some .btnUP) :
    (tick cfg inp s).calState = (s.calState + 4) % 6 + 1 := by
  have hc : s.calState = 1 ∨ s.calState = 2 ∨ s.calState = 3 ∨ s.calState = 4 ∨
      s.calState = 5 ∨ s.calState = 6 := by
    simp only [HIGHLIGHT_FIRST, HIGHLIGHT_LAST] at h1 h6; omega
  rcases hc with hc | hc | hc | hc | hc | hc <;>
    simp [tick, processCalibrationKeys, continuousPass, dispatchKey, highlightCase,
      gotoNextHighlightState, toByte, adjustWrap, hc, hk]

/-- C9: from every highlight state, a tick with an UP key edge followed by a
tick with a DOWN key edge ends in the starting state, and so does DOWN
followed by UP. -/
theorem C9_up_down_inverse (cfg : Config) (iUp iDown : TickInput) (s : Sys)
    (h1 : HIGHLIGHT_FIRST ≤ s.calState) (h6 : s.calState ≤ HIGHLIGHT_LAST)
    (hu : iUp.keyChanged = some .btnUP) (hd : iDown.keyChanged = some .btnDOWN) :
    (tick cfg iDown (tick cfg iUp s)).calState = s.calState ∧
    (tick cfg iUp (tick cfg iDown s)).calState = s.calState := by
  have hup := tick_highlight_up cfg iUp s h1 h6 hu
  have hdn := tick_highlight_down cfg iDown s h1 h6 hd
  simp only [HIGHLIGHT_FIRST, HIGHLIGHT_LAST] at h1 h6
  constructor
  · rw [tick_highlight_down cfg iDown (tick cfg iUp s)
      (by rw [hup]; simp only [HIGHLIGHT_FIRST]; omega)
      (by rw [hup]; simp only [HIGHLIGHT_LAST]; omega) hd, hup]
    omega
  · rw [tick_highlight_up cfg iUp (tick cfg iDown s)
      (by rw [hdn]; simp only [HIGHLIGHT_FIRST]; omega)
      (by rw [hdn]; simp only [HIGHLIGHT_LAST]; omega) hu, hdn]
    omega

/-- Witness of C9: from the Polar highlight state, where UP wraps to the last
highlight state. -/
theorem C9_up_down_inverse_witness :
    HIGHLIGHT_FIRST ≤ (exSys HIGHLIGHT_POLAR).calState ∧
    (exSys HIGHLIGHT_POLAR).calState ≤ HIGHLIGHT_LAST ∧
    (tick exConfig (edgeInput .btnDOWN)
      (tick exConfig (edgeInput .btnUP) (exSys HIGHLIGHT_POLAR))).calState = HIGHLIGHT_POLAR :=
  ⟨by decide, by decide,
    (C9_up_down_inverse exConfig (edgeInput .btnUP) (edgeInput .btnDOWN) (exSys HIGHLIGHT_POLAR)
      (by decide) (by decide) rfl rfl).1⟩

/-- After `n` ticks with a DOWN key edge each, a highlight state `c` has moved to
`(c - 1 + n) mod 6 + 1`. -/
theorem runTicks_highlight_down (cfg : Config) (inps : List TickInput) :
    ∀ s : Sys, HIGHLIGHT_FIRST ≤ s.calState → s.calState ≤ HIGHLIGHT_LAST →
      (∀ i ∈ inps, i.keyChanged = some .btnDOWN) →
      (runTicks cfg inps s).calState = (s.calState - 1 + inps.length) % 6 + 1 := by
  induction inps with
  | nil =>
    intro s h1 h6 _
    simp only [HIGHLIGHT_FIRST, HIGHLIGHT_LAST] at h1 h6
    show s.calState = (s.calState - 1 + 0) % 6 + 1
    omega
  | cons i rest ih =>
    intro s h1 h6 hall
    have ht := tick_highlight_down cfg i s h1 h6 (hall i (by simp))
    simp only [HIGHLIGHT_FIRST, HIGHLIGHT_LAST] at h1 h6
    rw [runTicks_cons, ih (tick cfg i s)
      (by rw [ht]; simp only [HIGHLIGHT_FIRST]; omega)
      (by rw [ht]; simp only [HIGHLIGHT_LAST]; omega)
      (fun j hj => hall j (by simp [hj])), ht, List.length_cons]
    omega

/-- C10: from every highlight state, six consecutive ticks with a DOWN key edge
each end in the starting state; the states reached after 1, 2, ..., 6 of them
are the six highlight states, each once; and fewer than six (at least one) do
not end in the starting state. -/
theorem C10_six_downs_full_cycle (cfg : Config) (inps : List TickInput) (s : Sys)
    (h1 : HIGHLIGHT_FIRST ≤ s.calState) (h6 : s.calState ≤ HIGHLIGHT_LAST)
    (hlen : inps.length = 6) (hall : ∀ i ∈ inps, i.keyChanged = some .btnDOWN) :
    (runTicks cfg inps s).calState = s.calState ∧
    List.Perm ((List.range 6).map (fun k => (runTicks cfg (inps.take (k + 1)) s).calState))
      [HIGHLIGHT_POLAR, HIGHLIGHT_SPEED, HIGHLIGHT_DRIFT, HIGHLIGHT_RA_STEPS,
        HIGHLIGHT_DEC_STEPS, HIGHLIGHT_BACKLASH_STEPS] ∧
    (∀ k, 0 < k → k < 6 → (runTicks cfg (inps.take k) s).calState ≠ s.calState) := by
  have hpre : ∀ k, k ≤ 6 →
      (runTicks cfg (inps.take k) s).calState = (s.calState - 1 + k) % 6 + 1 := by
    intro k hk
    rw [runTicks_highlight_down cfg (inps.take k) s h1 h6
      (fun i hi => hall i (List.mem_of_mem_take hi)), List.length_take, hlen,
      Nat.min_eq_left hk]
  simp only [HIGHLIGHT_FIRST, HIGHLIGHT_LAST] at h1 h6
  refine ⟨?_, ?_, ?_⟩
  · have htake : inps.take 6 = inps := by
      rw [← hlen]; exact List.take_length inps
    have h := hpre 6 (le_refl _)
    rw [htake] at h
    rw [h]; omega
  · have hc : s.calState = 1 ∨ s.calState = 2 ∨ s.calState = 3 ∨ s.calState = 4 ∨
        s.calState = 5 ∨ s.calState = 6 := by omega
    have hl : (List.range 6).map (fun k => (runTicks cfg (inps.take (k + 1)) s).calState) =
        (List.range 6).map (fun k => (s.calState - 1 + (k + 1)) % 6 + 1) := by
      apply List.map_congr_left
      intro k hk
      exact hpre (k + 1) (by have := List.mem_range.mp hk; omega)
    rw [hl]
    rcases hc with hc | hc | hc | hc | hc | hc <;> rw [hc] <;> decide
  · intro k hk0 hk6
    rw [hpre k (by omega)]
    omega

/-- Witness of C10: six DOWN edges from the Drift highlight state. -/
theorem C10_six_downs_full_cycle_witness :
    HIGHLIGHT_FIRST ≤ (exSys HIGHLIGHT_DRIFT).calState ∧
    (exSys HIGHLIGHT_DRIFT).calState ≤ HIGHLIGHT_LAST ∧
    (List.replicate 6 (edgeInput .btnDOWN)).length = 6 ∧
    (runTicks exConfig (List.replicate 6 (edgeInput .btnDOWN)) (exSys HIGHLIGHT_DRIFT)).calState =
      HIGHLIGHT_DRIFT :=
  ⟨by decide, by decide, by decide,
    (C10_six_downs_full_cycle exConfig (List.replicate 6 (edgeInput .btnDOWN))
      (exSys HIGHLIGHT_DRIFT) (by decide) (by decide) (by decide) (by decide)).1⟩

/-! ### Polar alignment -/

/-- C11: for a tick that begins in PolarWaitHome with no key edge pending, the
state after the tick is the Polar highlight state exactly when the mount
reports that it is not slewing; while the mount is slewing the state stays
PolarWaitHome and no call is made. (When the mount has stopped, the only call
is the display update.) -/
theorem C11_wait_home_polls_slewing (cfg : Config) (inp : TickInput) (s : Sys)
    (hs : s.calState = POLAR_CALIBRATION_WAIT_HOME) (hk : inp.keyChanged = none) :
    ((tick cfg inp s).calState = HIGHLIGHT_POLAR ↔ inp.isSlewingRAorDEC = false) ∧
    (inp.isSlewingRAorDEC = true →
      (tick cfg inp s).calState = POLAR_CALIBRATION_WAIT_HOME ∧ (tick cfg inp s).out = s.out) ∧
    (inp.isSlewingRAorDEC = false → (tick cfg inp s).out = s.out ++ [.lcdUpdateDisplay]) := by
  cases hsl : inp.isSlewingRAorDEC <;>
    simp [tick, processCalibrationKeys, continuousPass, emit, hs, hk, hsl]

/-- Witness of C11: the mount has stopped. -/
theorem C11_wait_home_polls_slewing_witness :
    (exSys POLAR_CALIBRATION_WAIT_HOME).calState = POLAR_CALIBRATION_WAIT_HOME ∧
    (heldInput .btnNONE).keyChanged = none ∧
    ((tick exConfig (heldInput .btnNONE) (exSys POLAR_CALIBRATION_WAIT_HOME)).calState =
        HIGHLIGHT_POLAR ↔ (heldInput .btnNONE).isSlewingRAorDEC = false) :=
  ⟨rfl, rfl,
    (C11_wait_home_polls_slewing exConfig (heldInput .btnNONE)
      (exSys POLAR_CALIBRATION_WAIT_HOME) rfl rfl).1⟩

/-- C12, the code at the failing input: a tick in PolarWaitCenterPolaris with a
SELECT key edge prints the status line, waits 750 ms, syncs the position to
the current RA and to DEC (89 - 90 or 89 + 90, 21, 6), sets the target to
home, starts slewing and advances the display, in this order; but the state
after the tick is the Polar highlight state, not PolarWaitHome: the
assignment of line 333 overwrites the one of line 321. -/
theorem C12_select_ends_in_polar_highlight (cfg : Config) (inp : TickInput) (s : Sys)
    (hs : s.calState = POLAR_CALIBRATION_WAIT_CENTER_POLARIS)
    (hk : inp.keyChanged = some .btnSELECT) :
    (tick cfg inp s).out = s.out ++
      [ .lcdPrintMenu "Aligned, homing", .delay 750,
        .syncPosition inp.currentRAHours inp.currentRAMinutes inp.currentRASeconds
          (89 - (if cfg.NORTHERN_HEMISPHERE then 90 else -90)) 21 6,
        .setTargetToHome, .startSlewingToTarget, .lcdSetNextActive ] ∧
    (tick cfg inp s).calState = HIGHLIGHT_POLAR ∧
    (tick cfg inp s).calState ≠ POLAR_CALIBRATION_WAIT_HOME := by
  simp [tick, processCalibrationKeys, continuousPass, dispatchKey, lcdPrintMenu, mountDelay,
    lcdSetNextActive, emit, hs, hk]

/-- Witness of the C12 evaluation in the northern hemisphere. -/
theorem C12_select_ends_in_polar_highlight_witness :
    (exSys POLAR_CALIBRATION_WAIT_CENTER_POLARIS).calState =
      POLAR_CALIBRATION_WAIT_CENTER_POLARIS ∧
    (edgeInput .btnSELECT).keyChanged = some .btnSELECT ∧
    (tick exConfig (edgeInput .btnSELECT)
      (exSys POLAR_CALIBRATION_WAIT_CENTER_POLARIS)).calState = HIGHLIGHT_POLAR :=
  ⟨rfl, rfl,
    (C12_select_ends_in_polar_highlight exConfig (edgeInput .btnSELECT)
      (exSys POLAR_CALIBRATION_WAIT_CENTER_POLARIS) rfl rfl).2.1⟩

/-! ### Working copies and the mount store -/

/-- A tick in RaStepsEdit, DecStepsEdit or BacklashEdit with neither UP nor DOWN
held and a RIGHT key edge leaves the three working copies as they are: the
working copy is not reloaded from the mount. -/
theorem tick_progressive_right_working (cfg : Config) (inp : TickInput) (s : Sys)
    (hs : s.calState = RA_STEP_CALIBRATION ∨ s.calState = DEC_STEP_CALIBRATION ∨
      s.calState = BACKLASH_CALIBRATION)
    (hu : inp.currentState ≠ .btnUP) (hd : inp.currentState ≠ .btnDOWN)
    (hk : inp.keyChanged = some .btnRIGHT) :
    (tick cfg inp s).RAStepsPerDegree = s.RAStepsPerDegree ∧
    (tick cfg inp s).DECStepsPerDegree = s.DECStepsPerDegree ∧
    (tick cfg inp s).BacklashSteps = s.BacklashSteps := by
  rcases hs with hs | hs | hs <;>
    simp [tick, processCalibrationKeys, continuousPass, checkProgressiveUpDown, dispatchKey,
      lcdSetNextActive, emit, hs, hu, hd, hk]

/-- C13, the code at the failing input. From the initial state over a mount that
stores 300 steps per degree for RA: three DOWN edges reach the RaSteps
highlight state (working copy reloaded: 300), SELECT enters RaStepsEdit, one
tick with UP held makes the working copy 301, and a RIGHT edge moves to the
RaSteps highlight state. There the working copy is 301 while the mount still
stores 300; a following SELECT edge enters RaStepsEdit with the working copy
301. -/
theorem C13_right_exit_keeps_edited_copy :
    (runTicks exConfig
      [edgeInput .btnDOWN, edgeInput .btnDOWN, edgeInput .btnDOWN, edgeInput .btnSELECT,
        heldInput .btnUP] (Sys.init exMount)).calState = RA_STEP_CALIBRATION ∧
    (runTicks exConfig
      [edgeInput .btnDOWN, edgeInput .btnDOWN, edgeInput .btnDOWN, edgeInput .btnSELECT,
        heldInput .btnUP, edgeInput .btnRIGHT] (Sys.init exMount)).calState =
      HIGHLIGHT_RA_STEPS ∧
    (runTicks exConfig
      [edgeInput .btnDOWN, edgeInput .btnDOWN, edgeInput .btnDOWN, edgeInput .btnSELECT,
        heldInput .btnUP, edgeInput .btnRIGHT] (Sys.init exMount)).RAStepsPerDegree = 301 ∧
    (runTicks exConfig
      [edgeInput .btnDOWN, edgeInput .btnDOWN, edgeInput .btnDOWN, edgeInput .btnSELECT,
        heldInput .btnUP, edgeInput .btnRIGHT]
      (Sys.init exMount)).mount.getStepsPerDegree .RA_STEPS = 300 ∧
    (runTicks exConfig
      [edgeInput .btnDOWN, edgeInput .btnDOWN, edgeInput .btnDOWN, edgeInput .btnSELECT,
        heldInput .btnUP, edgeInput .btnRIGHT, edgeInput .btnSELECT]
      (Sys.init exMount)).calState = RA_STEP_CALIBRATION ∧
    (runTicks exConfig
      [edgeInput .btnDOWN, edgeInput .btnDOWN, edgeInput .btnDOWN, edgeInput .btnSELECT,
        heldInput .btnUP, edgeInput .btnRIGHT, edgeInput .btnSELECT]
      (Sys.init exMount)).RAStepsPerDegree = 301 := by
  refine ⟨?_, ?_, ?_, ?_, ?_, ?_⟩ <;> decide

/-! ### Held keys and the edge-triggered part -/

/-- C14: in an edit state with UP or DOWN held, the key edge is not read, the
state is unchanged, the tick returns false, and the only calls of the tick are
the throttle `mount.delay(calDelay)` and, in SpeedEdit, non-persisting
`setSpeedCalibration(_, false)`: no persisting setter, no confirmation line, no
display advance, whatever edge is pending. -/
theorem C14_held_suppresses_edge_pass (cfg : Config) (inp : TickInput) (s : Sys)
    (hs : s.calState = SPEED_CALIBRATION ∨ s.calState = RA_STEP_CALIBRATION ∨
      s.calState = DEC_STEP_CALIBRATION ∨ s.calState = BACKLASH_CALIBRATION)
    (hh : inp.currentState = .btnUP ∨ inp.currentState = .btnDOWN) :
    (processCalibrationKeys cfg inp s).1 = false ∧
    (tick cfg inp s).keyChangedCalls = s.keyChangedCalls ∧
    (tick cfg inp s).calState = s.calState ∧
    ∃ extra, (tick cfg inp s).out = s.out ++ extra ∧
      ∀ c ∈ extra, c = .delay s.calDelay ∨ ∃ v, c = .setSpeedCalibration v false := by
  rcases hs with hs | hs | hs | hs
  · rcases hh with hh | hh
    · by_cases hlt : s.SpeedCalibration < 32760
      · refine ⟨?_, ?_, ?_,
          [.setSpeedCalibration (floatAdd 1 (floatDiv (s.SpeedCalibration + 1) 10000)) false,
            .setSpeedCalibration (floatAdd 1 (floatDiv (s.SpeedCalibration + 1) 10000)) false,
            .delay s.calDelay], ?_, ?_⟩ <;>
          (simp [tick, processCalibrationKeys, continuousPass, speedCalibrationHeld, shrinkDelay,
            mountSetSpeedCalibration, mountDelay, emit, hs, hh, hlt]; try norm_num)
      · refine ⟨?_, ?_, ?_, [.delay s.calDelay], ?_, ?_⟩ <;>
          simp [tick, processCalibrationKeys, continuousPass, speedCalibrationHeld, shrinkDelay,
            mountSetSpeedCalibration, mountDelay, emit, hs, hh, hlt]
    · by_cases hlt : s.SpeedCalibration > -32760
      · refine ⟨?_, ?_, ?_,
          [.setSpeedCalibration (floatAdd 1 (floatDiv (s.SpeedCalibration - 1) 10000)) false,
            .delay s.calDelay], ?_, ?_⟩ <;>
          (simp [tick, processCalibrationKeys, continuousPass, speedCalibrationHeld, shrinkDelay,
            mountSetSpeedCalibration, mountDelay, emit, hs, hh, hlt]; try norm_num)
      · refine ⟨?_, ?_, ?_, [.delay s.calDelay], ?_, ?_⟩ <;>
          simp [tick, processCalibrationKeys, continuousPass, speedCalibrationHeld, shrinkDelay,
            mountSetSpeedCalibration, mountDelay, emit, hs, hh, hlt]
  all_goals
    rcases hh with hh | hh <;>
      refine ⟨?_, ?_, ?_, [.delay s.calDelay], ?_, ?_⟩ <;>
      simp [tick, processCalibrationKeys, continuousPass, checkProgressiveUpDown, shrinkDelay,
        mountDelay, emit, hs, hh]

/-- Witness of C14: RaStepsEdit, UP held, a SELECT edge pending. -/
theorem C14_held_suppresses_edge_pass_witness :
    (raEditAt 301).calState = RA_STEP_CALIBRATION ∧
    (processCalibrationKeys exConfig
      { heldInput .btnUP with keyChanged := some .btnSELECT } (raEditAt 301)).1 = false ∧
    (tick exConfig { heldInput .btnUP with keyChanged := some .btnSELECT }
      (raEditAt 301)).calState = (raEditAt 301).calState :=
  have h := C14_held_suppresses_edge_pass exConfig
    { heldInput .btnUP with keyChanged := some .btnSELECT } (raEditAt 301)
    (Or.inr (Or.inl rfl)) (Or.inl rfl)
  ⟨rfl, h.1, h.2.2.1⟩

/-- C16: in DriftWaitSelectDuration a tick with a RIGHT key edge sets the
selection index to 1 whatever it was, moves to the Drift highlight state,
keeps `driftDuration` and the mount store, and makes no call at all. -/
theorem C16_right_cancels_selection (cfg : Config) (inp : TickInput) (s : Sys)
    (hs : s.calState = DRIFT_CALIBRATION_WAIT) (hk : inp.keyChanged = some .btnRIGHT) :
    (tick cfg inp s).driftSubIndex = 1 ∧
    (tick cfg inp s).calState = HIGHLIGHT_DRIFT ∧
    (tick cfg inp s).driftDuration = s.driftDuration ∧
    (tick cfg inp s).mount = s.mount ∧
    (tick cfg inp s).out = s.out := by
  simp [tick, processCalibrationKeys, continuousPass, dispatchKey, hs, hk]

/-- Witness of C16: selection index 3. -/
theorem C16_right_cancels_selection_witness :
    (driftWaitAt 3).calState = DRIFT_CALIBRATION_WAIT ∧
    (edgeInput .btnRIGHT).keyChanged = some .btnRIGHT ∧
    (tick exConfig (edgeInput .btnRIGHT) (driftWaitAt 3)).driftSubIndex = 1 :=
  ⟨rfl, rfl, (C16_right_cancels_selection exConfig (edgeInput .btnRIGHT) (driftWaitAt 3) rfl rfl).1⟩


/-- A tick with neither UP nor DOWN held and a LEFT key edge, in a state other
than DriftWaitSelectDuration, PolarWaitHome and DriftRunning: the only effects
are the reset of `calDelay` in the edit states and the read of the edge. -/
theorem tick_left_noop (cfg : Config) (inp : TickInput) (s : Sys)
    (h15 : s.calState ≠ DRIFT_CALIBRATION_WAIT) (h12 : s.calState ≠ POLAR_CALIBRATION_WAIT_HOME)
    (h16 : s.calState ≠ DRIFT_CALIBRATION_RUNNING)
    (hu : inp.currentState ≠ .btnUP) (hd : inp.currentState ≠ .btnDOWN)
    (hk : inp.keyChanged = some .btnLEFT) :
    tick cfg inp s =
      { s with
        calDelay := if s.calState = SPEED_CALIBRATION ∨ s.calState = RA_STEP_CALIBRATION ∨
          s.calState = DEC_STEP_CALIBRATION ∨ s.calState = BACKLASH_CALIBRATION
          then 150 else s.calDelay,
        keyChangedCalls := s.keyChangedCalls + 1 } := by
  simp only [tick, processCalibrationKeys, continuousPass, speedCalibrationHeld,
    checkProgressiveUpDown, hu, hd, hk, h15, h12, h16, if_false]
  split_ifs <;> (simp_all [dispatchKey, highlightCase]; try (split_ifs <;> simp_all))


/-- C17: unhandled keys are no-ops. In every state other than
DriftWaitSelectDuration, PolarWaitHome and DriftRunning, a tick with neither UP
nor DOWN held and a LEFT key edge leaves `calState`, the four working values,
`driftSubIndex`, `driftDuration` and the mount store unchanged and makes no
call; the same holds for an UP or a DOWN key edge in PolarWaitCenterPolaris. -/
theorem C17_unhandled_keys_are_noops (cfg : Config) (inp : TickInput) (s : Sys) :
    (s.calState ≠ DRIFT_CALIBRATION_WAIT → s.calState ≠ POLAR_CALIBRATION_WAIT_HOME →
      s.calState ≠ DRIFT_CALIBRATION_RUNNING →
      inp.currentState ≠ .btnUP → inp.currentState ≠ .btnDOWN →
      inp.keyChanged = some .btnLEFT →
      (tick cfg inp s).calState = s.calState ∧
      (tick cfg inp s).SpeedCalibration = s.SpeedCalibration ∧
      (tick cfg inp s).RAStepsPerDegree = s.RAStepsPerDegree ∧
      (tick cfg inp s).DECStepsPerDegree = s.DECStepsPerDegree ∧
      (tick cfg inp s).BacklashSteps = s.BacklashSteps ∧
      (tick cfg inp s).driftSubIndex = s.driftSubIndex ∧
      (tick cfg inp s).driftDuration = s.driftDuration ∧
      (tick cfg inp s).mount = s.mount ∧
      (tick cfg inp s).out = s.out) ∧
    (s.calState = POLAR_CALIBRATION_WAIT_CENTER_POLARIS →
      (inp.keyChanged = some .btnUP ∨ inp.keyChanged = some .btnDOWN) →
      (tick cfg inp s).calState = s.calState ∧
      (tick cfg inp s).SpeedCalibration = s.SpeedCalibration ∧
      (tick cfg inp s).RAStepsPerDegree = s.RAStepsPerDegree ∧
      (tick cfg inp s).DECStepsPerDegree = s.DECStepsPerDegree ∧
      (tick cfg inp s).BacklashSteps = s.BacklashSteps ∧
      (tick cfg inp s).driftSubIndex = s.driftSubIndex ∧
      (tick cfg inp s).driftDuration = s.driftDuration ∧
      (tick cfg inp s).mount = s.mount ∧
      (tick cfg inp s).out = s.out) := by
  constructor
  · intro h15 h12 h16 hu hd hk
    rw [tick_left_noop cfg inp s h15 h12 h16 hu hd hk]
    exact ⟨rfl, rfl, rfl, rfl, rfl, rfl, rfl, rfl, rfl⟩
  · intro hs hk
    rcases hk with hk | hk <;>
      simp [tick, processCalibrationKeys, continuousPass, dispatchKey, hs, hk]

/-- Witness of C17: a LEFT edge in the DecSteps highlight state. -/
theorem C17_unhandled_keys_are_noops_witness :
    (exSys HIGHLIGHT_DEC_STEPS).calState ≠ DRIFT_CALIBRATION_WAIT ∧
    (edgeInput .btnLEFT).keyChanged = some .btnLEFT ∧
    (tick exConfig (edgeInput .btnLEFT) (exSys HIGHLIGHT_DEC_STEPS)).calState =
      (exSys HIGHLIGHT_DEC_STEPS).calState :=
  ⟨by decide, rfl,
    ((C17_unhandled_keys_are_noops exConfig (edgeInput .btnLEFT) (exSys HIGHLIGHT_DEC_STEPS)).1
      (by decide) (by decide) (by decide) (by decide) (by decide) rfl).1⟩


/-! ### The drift duration picker -/

/-- The wrap of an index into 0..3 by one step up, after the byte conversion. -/
theorem wrap_up (i : Nat) : toByte (adjustWrap i 1 0 3) = (i + 1) % 4 := by
  unfold toByte adjustWrap
  omega

/-- The wrap of an index into 0..3 by one step down, after the byte conversion. -/
theorem wrap_down (i : Nat) : toByte (adjustWrap i (-1) 0 3) = (i + 3) % 4 := by
  unfold toByte adjustWrap
  omega

theorem gotoNextHighlightState_driftSubIndex (dir : Int) (s : Sys) :
    (gotoNextHighlightState dir s).driftSubIndex = s.driftSubIndex := by
  unfold gotoNextHighlightState
  simp only []
  split_ifs <;> rfl

theorem highlightCase_driftSubIndex (key : Button) (a b : Nat) (s : Sys) :
    (highlightCase key a b s).driftSubIndex = s.driftSubIndex := by
  cases key <;>
    simp [highlightCase, gotoNextHighlightState_driftSubIndex, lcdSetNextActive, emit]

theorem continuousPass_driftSubIndex (inp : TickInput) (s : Sys) :
    (continuousPass inp s).2.driftSubIndex = s.driftSubIndex := by
  unfold continuousPass speedCalibrationHeld checkProgressiveUpDown
  simp only [driftCalibrationRunning_eq]
  split_ifs <;> rfl

/-- The values of `calState` the switch distinguishes, and the rest. -/
theorem calState_cases (c : Nat) :
    c = POLAR_CALIBRATION_WAIT_HOME ∨ c = SPEED_CALIBRATION ∨ c = RA_STEP_CALIBRATION ∨
    c = DEC_STEP_CALIBRATION ∨ c = BACKLASH_CALIBRATION ∨ c = HIGHLIGHT_POLAR ∨
    c = POLAR_CALIBRATION_WAIT_CENTER_POLARIS ∨ c = HIGHLIGHT_SPEED ∨ c = HIGHLIGHT_DRIFT ∨
    c = DRIFT_CALIBRATION_WAIT ∨ c = HIGHLIGHT_RA_STEPS ∨ c = HIGHLIGHT_DEC_STEPS ∨
    c = HIGHLIGHT_BACKLASH_STEPS ∨ c = DRIFT_CALIBRATION_RUNNING ∨
    (c ≠ POLAR_CALIBRATION_WAIT_HOME ∧ c ≠ SPEED_CALIBRATION ∧ c ≠ RA_STEP_CALIBRATION ∧
      c ≠ DEC_STEP_CALIBRATION ∧ c ≠ BACKLASH_CALIBRATION ∧ c ≠ HIGHLIGHT_POLAR ∧
      c ≠ POLAR_CALIBRATION_WAIT_CENTER_POLARIS ∧ c ≠ HIGHLIGHT_SPEED ∧ c ≠ HIGHLIGHT_DRIFT ∧
      c ≠ DRIFT_CALIBRATION_WAIT ∧ c ≠ HIGHLIGHT_RA_STEPS ∧ c ≠ HIGHLIGHT_DEC_STEPS ∧
      c ≠ HIGHLIGHT_BACKLASH_STEPS ∧ c ≠ DRIFT_CALIBRATION_RUNNING) := by
  simp only [POLAR_CALIBRATION_WAIT_HOME, SPEED_CALIBRATION, RA_STEP_CALIBRATION,
    DEC_STEP_CALIBRATION, BACKLASH_CALIBRATION, HIGHLIGHT_POLAR,
    POLAR_CALIBRATION_WAIT_CENTER_POLARIS, HIGHLIGHT_SPEED, HIGHLIGHT_DRIFT,
    DRIFT_CALIBRATION_WAIT, HIGHLIGHT_RA_STEPS, HIGHLIGHT_DEC_STEPS, HIGHLIGHT_BACKLASH_STEPS,
    DRIFT_CALIBRATION_RUNNING]
  omega

/-- The switch keeps the selection index below 4. -/
theorem dispatchKey_driftSubIndex_lt (cfg : Config) (inp : TickInput) (key : Button) (s : Sys)
    (h : s.driftSubIndex < 4) : (dispatchKey cfg inp key s).driftSubIndex < 4 := by
  rcases calState_cases s.calState with
    hs | hs | hs | hs | hs | hs | hs | hs | hs | hs | hs | hs | hs | hs | hs <;>
  cases key <;>
  (simp [dispatchKey, hs, h, highlightCase_driftSubIndex, gotoNextHighlightState_driftSubIndex,
    wrap_up, wrap_down, mountSetSpeedCalibration, mountSetStepsPerDegree,
    mountSetBacklashCorrection, lcdPrintMenu, lcdSetNextActive, mountDelay, emit]; try omega)

/-- Every tick keeps the selection index below 4. -/
theorem tick_driftSubIndex_lt (cfg : Config) (inp : TickInput) (s : Sys)
    (h : s.driftSubIndex < 4) : (tick cfg inp s).driftSubIndex < 4 := by
  have hc := continuousPass_driftSubIndex inp s
  unfold tick processCalibrationKeys
  simp only []
  split_ifs
  · cases hk : inp.keyChanged with
    | none => simp only []; rw [hc]; exact h
    | some key =>
      simp only []
      apply dispatchKey_driftSubIndex_lt
      show (continuousPass inp s).2.driftSubIndex < 4
      rw [hc]; exact h
  · rw [hc]; exact h


/-- Every state reachable from the initial one has a selection index below 4. -/
theorem runTicks_driftSubIndex_lt (cfg : Config) (inps : List TickInput) :
    ∀ s : Sys, s.driftSubIndex < 4 → (runTicks cfg inps s).driftSubIndex < 4 := by
  induction inps with
  | nil => intro s h; exact h
  | cons i rest ih =>
    intro s h
    rw [runTicks_cons]
    exact ih _ (tick_driftSubIndex_lt cfg i s h)

/-- C15: in DriftWaitSelectDuration with selection index `i < 4`, a DOWN or LEFT
key edge sets the index to `(i + 1) mod 4`, an UP key edge sets it to
`(i + 3) mod 4`, and the state stays DriftWaitSelectDuration. In every state
reachable from the initial one (index 1) by any sequence of ticks the index is
below 4, so `duration[driftSubIndex]` is inside the table and the picker
column `driftSubIndex * 4` is inside the template. -/
theorem C15_selection_index_in_bounds (cfg : Config) :
    (∀ (inp : TickInput) (s : Sys), s.calState = DRIFT_CALIBRATION_WAIT → s.driftSubIndex < 4 →
      (inp.keyChanged = some .btnDOWN ∨ inp.keyChanged = some .btnLEFT) →
      (tick cfg inp s).driftSubIndex = (s.driftSubIndex + 1) % 4 ∧
      (tick cfg inp s).calState = DRIFT_CALIBRATION_WAIT) ∧
    (∀ (inp : TickInput) (s : Sys), s.calState = DRIFT_CALIBRATION_WAIT → s.driftSubIndex < 4 →
      inp.keyChanged = some .btnUP →
      (tick cfg inp s).driftSubIndex = (s.driftSubIndex + 3) % 4 ∧
      (tick cfg inp s).calState = DRIFT_CALIBRATION_WAIT) ∧
    (∀ (m : Mount) (inps : List TickInput),
      (runTicks cfg inps (Sys.init m)).driftSubIndex < 4 ∧
      (runTicks cfg inps (Sys.init m)).driftSubIndex < duration.length ∧
      (runTicks cfg inps (Sys.init m)).driftSubIndex * 4 < driftPickerTemplate.length) := by
  refine ⟨?_, ?_, ?_⟩
  · intro inp s hs _ hk
    rcases hk with hk | hk <;>
      simp [tick, processCalibrationKeys, continuousPass, dispatchKey, wrap_up, hs, hk]
  · intro inp s hs _ hk
    simp [tick, processCalibrationKeys, continuousPass, dispatchKey, wrap_down, hs, hk]
  · intro m inps
    have h := runTicks_driftSubIndex_lt cfg inps (Sys.init m) (by show (1 : Nat) < 4; decide)
    have hl : duration.length = 4 := rfl
    have ht : driftPickerTemplate.length = 15 := by decide
    rw [hl, ht]
    exact ⟨h, h, by omega⟩

/-- Witness of C15: a DOWN edge at index 3 wraps to index 0. -/
theorem C15_selection_index_in_bounds_witness :
    (driftWaitAt 3).calState = DRIFT_CALIBRATION_WAIT ∧ (driftWaitAt 3).driftSubIndex < 4 ∧
    (edgeInput .btnDOWN).keyChanged = some .btnDOWN ∧
    (tick exConfig (edgeInput .btnDOWN) (driftWaitAt 3)).driftSubIndex = (3 + 1) % 4 :=
  ⟨rfl, by decide, rfl,
    ((C15_selection_index_in_bounds exConfig).1 (edgeInput .btnDOWN) (driftWaitAt 3) rfl
      (by decide) (Or.inl rfl)).1⟩

/-! ### The Speed highlight case and the symmetric form -/

/-- The handler with the missing `else` and the symmetric handler agree on every key. -/
theorem highlightCase_eq_symmetric (key : Button) (a b : Nat) (s : Sys) :
    highlightCase key a b s = highlightCaseSymmetric key a b s := by
  cases key <;> simp [highlightCase, highlightCaseSymmetric]

/-- A tick that begins in the Speed highlight state with a key edge. -/
theorem tick_highlight_speed (cfg : Config) (inp : TickInput) (key : Button) (s : Sys)
    (hs : s.calState = HIGHLIGHT_SPEED) (hk : inp.keyChanged = some key) :
    tick cfg inp s = highlightCase key SPEED_CALIBRATION HIGHLIGHT_POLAR
      { s with keyChangedCalls := s.keyChangedCalls + 1 } := by
  simp [tick, processCalibrationKeys, continuousPass, dispatchKey, hs, hk]

/-- C19 as stated fails: in the Speed highlight state an UP key edge ends the
tick in the Polar highlight state, exactly as the symmetric handler does,
whereas `gotoNextHighlightState(1)` followed by `gotoNextHighlightState(-1)`
would end in the Speed highlight state. -/
theorem C19_counterexample :
    (exSys HIGHLIGHT_SPEED).calState = HIGHLIGHT_SPEED ∧
    (tick exConfig (edgeInput .btnUP) (exSys HIGHLIGHT_SPEED)).calState = HIGHLIGHT_POLAR ∧
    (highlightCaseSymmetric .btnUP SPEED_CALIBRATION HIGHLIGHT_POLAR
      (exSys HIGHLIGHT_SPEED)).calState = HIGHLIGHT_POLAR ∧
    (bothDirections (exSys HIGHLIGHT_SPEED)).calState = HIGHLIGHT_SPEED := by
  refine ⟨rfl, ?_, ?_, ?_⟩ <;> decide

/-- C19, amended: the missing `else` in the Speed highlight handler has no
effect. For every key the tick from the Speed highlight state is what the
symmetric `if / else if` handler gives; an UP key edge calls only
`gotoNextHighlightState(-1)` and ends in the Polar highlight state, a DOWN key
edge calls only `gotoNextHighlightState(1)` and ends in the Drift highlight
state. -/
theorem C19_missing_else_is_harmless (cfg : Config) (inp : TickInput) (key : Button) (s : Sys)
    (hs : s.calState = HIGHLIGHT_SPEED) (hk : inp.keyChanged = some key) :
    tick cfg inp s = highlightCaseSymmetric key SPEED_CALIBRATION HIGHLIGHT_POLAR
      { s with keyChangedCalls := s.keyChangedCalls + 1 } ∧
    (key = .btnUP →
      tick cfg inp s =
        gotoNextHighlightState (-1) { s with keyChangedCalls := s.keyChangedCalls + 1 } ∧
      (tick cfg inp s).calState = HIGHLIGHT_POLAR) ∧
    (key = .btnDOWN →
      tick cfg inp s =
        gotoNextHighlightState 1 { s with keyChangedCalls := s.keyChangedCalls + 1 } ∧
      (tick cfg inp s).calState = HIGHLIGHT_DRIFT) := by
  have ht := tick_highlight_speed cfg inp key s hs hk
  refine ⟨by rw [ht, highlightCase_eq_symmetric], ?_, ?_⟩
  · intro hkey
    subst hkey
    rw [ht]
    simp [highlightCase, gotoNextHighlightState, toByte, adjustWrap, hs]
  · intro hkey
    subst hkey
    rw [ht]
    simp [highlightCase, gotoNextHighlightState, toByte, adjustWrap, hs]

/-- Witness of the amended C19: an UP key edge in the Speed highlight state. -/
theorem C19_missing_else_is_harmless_witness :
    (exSys HIGHLIGHT_SPEED).calState = HIGHLIGHT_SPEED ∧
    (edgeInput .btnUP).keyChanged = some .btnUP ∧
    (tick exConfig (edgeInput .btnUP) (exSys HIGHLIGHT_SPEED)).calState = HIGHLIGHT_POLAR :=
  ⟨rfl, rfl,
    ((C19_missing_else_is_harmless exConfig (edgeInput .btnUP) .btnUP (exSys HIGHLIGHT_SPEED)
      rfl rfl).2.1 rfl).2⟩


/-! ### The status line of the duration picker -/

/-- C20: in DriftWaitSelectDuration with selection index `i < 4`,
`printCalibrationSubmenu` makes one call, `printMenu` of the 15-character
template with the character at column `4 * i` replaced by `>`. The replaced
character is a space, the line contains exactly one `>`, which stands
immediately before the label of preset `i`, and nothing of the state changes
but the list of calls. -/
theorem C20_picker_line (dtostrf : ℚ → Nat → Nat → String) (isSlewing : Bool) (s : Sys)
    (hs : s.calState = DRIFT_CALIBRATION_WAIT) (hi : s.driftSubIndex < 4) :
    printCalibrationSubmenu dtostrf isSlewing s =
      { s with out := s.out ++
          [.lcdPrintMenu (setCharAt driftPickerTemplate (s.driftSubIndex * 4) '>')] } ∧
    driftPickerTemplate = " 1m  2m  3m  5m" ∧ driftPickerTemplate.length = 15 ∧
    (setCharAt driftPickerTemplate (s.driftSubIndex * 4) '>').data =
      driftPickerTemplate.data.set (s.driftSubIndex * 4) '>' ∧
    driftPickerTemplate.data[s.driftSubIndex * 4]? = some ' ' ∧
    (setCharAt driftPickerTemplate (s.driftSubIndex * 4) '>').length = 15 ∧
    setCharAt driftPickerTemplate (s.driftSubIndex * 4) '>' =
      [">1m  2m  3m  5m", " 1m >2m  3m  5m", " 1m  2m >3m  5m", " 1m  2m  3m >5m"].getD
        s.driftSubIndex "" ∧
    (setCharAt driftPickerTemplate (s.driftSubIndex * 4) '>').data.count '>' = 1 ∧
    ((setCharAt driftPickerTemplate (s.driftSubIndex * 4) '>').data.drop
        (s.driftSubIndex * 4)).take 3 =
      '>' :: (["1m", "2m", "3m", "5m"].getD s.driftSubIndex "").data := by
  have h4 : s.driftSubIndex = 0 ∨ s.driftSubIndex = 1 ∨ s.driftSubIndex = 2 ∨
      s.driftSubIndex = 3 := by omega
  refine ⟨?_, rfl, by decide, rfl, ?_, ?_, ?_, ?_, ?_⟩
  · simp [printCalibrationSubmenu, lcdPrintMenu, emit, hs]
  · rcases h4 with h | h | h | h <;> rw [h] <;> decide
  · rcases h4 with h | h | h | h <;> rw [h] <;> decide
  · rcases h4 with h | h | h | h <;> rw [h] <;> decide
  · rcases h4 with h | h | h | h <;> rw [h] <;> decide
  · rcases h4 with h | h | h | h <;> rw [h] <;> decide

/-- Witness of C20: selection index 2. -/
theorem C20_picker_line_witness :
    (driftWaitAt 2).calState = DRIFT_CALIBRATION_WAIT ∧ (driftWaitAt 2).driftSubIndex < 4 ∧
    setCharAt driftPickerTemplate ((driftWaitAt 2).driftSubIndex * 4) '>' =
      [">1m  2m  3m  5m", " 1m >2m  3m  5m", " 1m  2m >3m  5m", " 1m  2m  3m >5m"].getD
        (driftWaitAt 2).driftSubIndex "" :=
  ⟨rfl, by decide,
    (C20_picker_line exDtostrf false (driftWaitAt 2) rfl (by decide)).2.2.2.2.2.2.1⟩


/-! ### Where the mount setters are called -/

theorem gotoNextHighlightState_out (dir : Int) (s : Sys) :
    (gotoNextHighlightState dir s).out = s.out := by
  unfold gotoNextHighlightState
  simp only []
  split_ifs <;> rfl

theorem highlightCase_setters (key : Button) (a b : Nat) (s : Sys) :
    (highlightCase key a b s).out.filter Cmd.isSetter = s.out.filter Cmd.isSetter := by
  rw [highlightCase_out]
  split_ifs <;> simp [Cmd.isSetter]

/-- The first part of a tick outside the four edit states calls no setter and
leaves a state outside the four edit states. -/
theorem continuousPass_nonedit (inp : TickInput) (s : Sys)
    (h14 : s.calState ≠ SPEED_CALIBRATION) (h17 : s.calState ≠ RA_STEP_CALIBRATION)
    (h18 : s.calState ≠ DEC_STEP_CALIBRATION) (h19 : s.calState ≠ BACKLASH_CALIBRATION) :
    (continuousPass inp s).1 = true ∧
    (continuousPass inp s).2.out.filter Cmd.isSetter = s.out.filter Cmd.isSetter ∧
    (continuousPass inp s).2.calState ≠ SPEED_CALIBRATION ∧
    (continuousPass inp s).2.calState ≠ RA_STEP_CALIBRATION ∧
    (continuousPass inp s).2.calState ≠ DEC_STEP_CALIBRATION ∧
    (continuousPass inp s).2.calState ≠ BACKLASH_CALIBRATION := by
  by_cases h12 : s.calState = POLAR_CALIBRATION_WAIT_HOME
  · cases hsl : inp.isSlewingRAorDEC <;>
      simp [continuousPass, emit, Cmd.isSetter, h12, hsl]
  · by_cases h16 : s.calState = DRIFT_CALIBRATION_RUNNING
    · simp [continuousPass, driftCalibrationRunning_eq, driftTrace, Cmd.isSetter, h16]
    · simp [continuousPass, h12, h14, h16, h17, h18, h19]

/-- The switch in a state outside the four edit states calls no setter. -/
theorem dispatchKey_nonedit_setters (cfg : Config) (inp : TickInput) (key : Button) (s : Sys)
    (h14 : s.calState ≠ SPEED_CALIBRATION) (h17 : s.calState ≠ RA_STEP_CALIBRATION)
    (h18 : s.calState ≠ DEC_STEP_CALIBRATION) (h19 : s.calState ≠ BACKLASH_CALIBRATION) :
    (dispatchKey cfg inp key s).out.filter Cmd.isSetter = s.out.filter Cmd.isSetter := by
  rcases calState_cases s.calState with
    hs | hs | hs | hs | hs | hs | hs | hs | hs | hs | hs | hs | hs | hs | hs
  any_goals contradiction
  all_goals
    cases key <;>
      simp [dispatchKey, highlightCase_setters, gotoNextHighlightState_out, lcdPrintMenu,
        lcdSetNextActive, mountDelay, emit, Cmd.isSetter, hs]

/-- A tick that begins outside the four edit states calls no setter. -/
theorem tick_nonedit_setters (cfg : Config) (inp : TickInput) (s : Sys)
    (h14 : s.calState ≠ SPEED_CALIBRATION) (h17 : s.calState ≠ RA_STEP_CALIBRATION)
    (h18 : s.calState ≠ DEC_STEP_CALIBRATION) (h19 : s.calState ≠ BACKLASH_CALIBRATION) :
    (tick cfg inp s).out.filter Cmd.isSetter = s.out.filter Cmd.isSetter := by
  obtain ⟨hc, ho, g14, g17, g18, g19⟩ := continuousPass_nonedit inp s h14 h17 h18 h19
  unfold tick processCalibrationKeys
  simp only [hc, if_true]
  cases hk : inp.keyChanged with
  | none => simpa using ho
  | some key =>
    simp only []
    rw [dispatchKey_nonedit_setters cfg inp key _ (by exact g14) (by exact g17) (by exact g18)
      (by exact g19)]
    simpa using ho


/-- The setter calls of a tick that begins in SpeedEdit. -/
theorem tick_speed_setters (cfg : Config) (inp : TickInput) (s : Sys)
    (hs : s.calState = SPEED_CALIBRATION) :
    (tick cfg inp s).out.filter Cmd.isSetter =
      s.out.filter Cmd.isSetter ++ setterCallsOfTick inp s := by
  by_cases hu : inp.currentState = .btnUP
  · by_cases hlt : s.SpeedCalibration < 32760 <;>
      (simp [tick, processCalibrationKeys, continuousPass, speedCalibrationHeld, shrinkDelay,
        mountSetSpeedCalibration, mountDelay, emit, setterCallsOfTick, Cmd.isSetter, hs, hu,
        hlt]; try norm_num)
  · by_cases hd : inp.currentState = .btnDOWN
    · by_cases hlt : s.SpeedCalibration > -32760 <;>
        (simp [tick, processCalibrationKeys, continuousPass, speedCalibrationHeld, shrinkDelay,
          mountSetSpeedCalibration, mountDelay, emit, setterCallsOfTick, Cmd.isSetter, hs, hd,
          hlt]; try norm_num)
    · rcases hk : inp.keyChanged with _ | key
      · simp [tick, processCalibrationKeys, continuousPass, speedCalibrationHeld,
          setterCallsOfTick, hs, hu, hd, hk]
      · cases key <;>
          (simp [tick, processCalibrationKeys, continuousPass, speedCalibrationHeld, dispatchKey,
            mountSetSpeedCalibration, lcdPrintMenu, lcdSetNextActive, mountDelay, emit,
            setterCallsOfTick, Cmd.isSetter, hs, hu, hd, hk]; try norm_num)

/-- The setter calls of a tick that begins in RaStepsEdit, DecStepsEdit or
BacklashEdit. -/
theorem tick_progressive_setters (cfg : Config) (inp : TickInput) (s : Sys)
    (hs : s.calState = RA_STEP_CALIBRATION ∨ s.calState = DEC_STEP_CALIBRATION ∨
      s.calState = BACKLASH_CALIBRATION) :
    (tick cfg inp s).out.filter Cmd.isSetter =
      s.out.filter Cmd.isSetter ++ setterCallsOfTick inp s := by
  by_cases hu : inp.currentState = .btnUP
  · rcases hs with hs | hs | hs <;>
      simp [tick, processCalibrationKeys, continuousPass, checkProgressiveUpDown, shrinkDelay,
        mountDelay, emit, setterCallsOfTick, Cmd.isSetter, hs, hu]
  · by_cases hd : inp.currentState = .btnDOWN
    · rcases hs with hs | hs | hs <;>
        simp [tick, processCalibrationKeys, continuousPass, checkProgressiveUpDown, shrinkDelay,
          mountDelay, emit, setterCallsOfTick, Cmd.isSetter, hs, hd]
    · rcases hk : inp.keyChanged with _ | key
      · rcases hs with hs | hs | hs <;>
          simp [tick, processCalibrationKeys, continuousPass, checkProgressiveUpDown,
            setterCallsOfTick, hs, hu, hd, hk]
      · rcases hs with hs | hs | hs <;> cases key <;>
          simp [tick, processCalibrationKeys, continuousPass, checkProgressiveUpDown, dispatchKey,
            mountSetStepsPerDegree, mountSetBacklashCorrection, lcdPrintMenu, lcdSetNextActive,
            mountDelay, emit, setterCallsOfTick, Cmd.isSetter, hs, hu, hd, hk]

/-- The setter calls of any tick are the tabulated ones. -/
theorem tick_setters (cfg : Config) (inp : TickInput) (s : Sys) :
    (tick cfg inp s).out.filter Cmd.isSetter =
      s.out.filter Cmd.isSetter ++ setterCallsOfTick inp s := by
  by_cases h14 : s.calState = SPEED_CALIBRATION
  · exact tick_speed_setters cfg inp s h14
  · by_cases h17 : s.calState = RA_STEP_CALIBRATION
    · exact tick_progressive_setters cfg inp s (Or.inl h17)
    · by_cases h18 : s.calState = DEC_STEP_CALIBRATION
      · exact tick_progressive_setters cfg inp s (Or.inr (Or.inl h18))
      · by_cases h19 : s.calState = BACKLASH_CALIBRATION
        · exact tick_progressive_setters cfg inp s (Or.inr (Or.inr h19))
        · rw [tick_nonedit_setters cfg inp s h14 h17 h18 h19]
          have : setterCallsOfTick inp s = [] := by
            unfold setterCallsOfTick
            simp [h14, h17, h18, h19]
          rw [this, List.append_nil]


/-- C18 as stated fails in SpeedEdit: one tick with UP held from the working
value 0 calls `setSpeedCalibration(v, false)` (twice) with `v = 8389447 / 8388608`,
the float value of `1.0 + 1 / 10000.0`, and the speed calibration stored in the
mount changes from 1 to `v`. -/
theorem C18_counterexample :
    (speedEditAt 0).calState = SPEED_CALIBRATION ∧
    (heldInput .btnUP).currentState = .btnUP ∧
    (tick exConfig (heldInput .btnUP) (speedEditAt 0)).out.filter Cmd.isSetter =
      [.setSpeedCalibration (8389447 / 8388608) false,
        .setSpeedCalibration (8389447 / 8388608) false] ∧
    (speedEditAt 0).mount.speedCalibration = 1 ∧
    (tick exConfig (heldInput .btnUP) (speedEditAt 0)).mount.speedCalibration =
      8389447 / 8388608 := by
  refine ⟨rfl, rfl, ?_, rfl, ?_⟩
  · rw [tick_setters]
    simp [setterCallsOfTick, speedEditAt, exSys, Sys.init, heldInput, floatAdd_floatDiv_1]
  · simp [tick, processCalibrationKeys, continuousPass, speedCalibrationHeld, shrinkDelay,
      mountSetSpeedCalibration, mountDelay, emit, speedEditAt, exSys, Sys.init, heldInput]
    norm_num [floatAdd_floatDiv_1]

/-- C18, amended. (a) In RaStepsEdit, DecStepsEdit and BacklashEdit a tick with UP
or DOWN held calls no mount setter and leaves the mount store as it is. (b) In
SpeedEdit a tick with UP or DOWN held calls no setter when the guard leaves
the working value as it is, and otherwise calls only
`setSpeedCalibration(v, false)`, `v` the float value of the source expression
`1.0 + w / 10000.0` for the new working value `w`: never a persisting call.
(c) In any tick, every setter call is either such a non-persisting speed call
of a held key in SpeedEdit, or the commit of the edge-triggered part with
neither UP nor DOWN held: the SELECT or RIGHT edge in SpeedEdit (persisting,
with the float value of `1.0 + w / 10000.0` for the working value `w`), or the
SELECT edge in RaStepsEdit, DecStepsEdit or BacklashEdit. -/
theorem C18_setters_of_a_tick (cfg : Config) (inp : TickInput) (s : Sys) :
    ((s.calState = RA_STEP_CALIBRATION ∨ s.calState = DEC_STEP_CALIBRATION ∨
        s.calState = BACKLASH_CALIBRATION) →
      (inp.currentState = .btnUP ∨ inp.currentState = .btnDOWN) →
      (tick cfg inp s).out.filter Cmd.isSetter = s.out.filter Cmd.isSetter ∧
      (tick cfg inp s).mount = s.mount) ∧
    (s.calState = SPEED_CALIBRATION →
      (inp.currentState = .btnUP ∨ inp.currentState = .btnDOWN) →
      ∃ n, (tick cfg inp s).out.filter Cmd.isSetter = s.out.filter Cmd.isSetter ++
          List.replicate n
            (.setSpeedCalibration
              (floatAdd 1 (floatDiv (tick cfg inp s).SpeedCalibration 10000)) false) ∧
        (n = 0 ↔ (tick cfg inp s).SpeedCalibration = s.SpeedCalibration)) ∧
    (∃ calls, (tick cfg inp s).out.filter Cmd.isSetter = s.out.filter Cmd.isSetter ++ calls ∧
      ∀ c ∈ calls,
        (s.calState = SPEED_CALIBRATION ∧
          (inp.currentState = .btnUP ∨ inp.currentState = .btnDOWN) ∧
          ∃ v, c = .setSpeedCalibration v false) ∨
        (inp.currentState ≠ .btnUP ∧ inp.currentState ≠ .btnDOWN ∧
          ((s.calState = SPEED_CALIBRATION ∧
              (inp.keyChanged = some .btnSELECT ∨ inp.keyChanged = some .btnRIGHT) ∧
              c = .setSpeedCalibration (floatAdd 1 (floatDiv s.SpeedCalibration 10000)) true) ∨
            (s.calState = RA_STEP_CALIBRATION ∧ inp.keyChanged = some .btnSELECT ∧
              c = .setStepsPerDegree .RA_STEPS s.RAStepsPerDegree) ∨
            (s.calState = DEC_STEP_CALIBRATION ∧ inp.keyChanged = some .btnSELECT ∧
              c = .setStepsPerDegree .DEC_STEPS s.DECStepsPerDegree) ∨
            (s.calState = BACKLASH_CALIBRATION ∧ inp.keyChanged = some .btnSELECT ∧
              c = .setBacklashCorrection s.BacklashSteps)))) := by
  refine ⟨?_, ?_, ?_⟩
  · intro hs hh
    refine ⟨?_, (tick_progressive_held cfg inp s hs hh).2.1⟩
    rw [(tick_progressive_held cfg inp s hs hh).2.2]
    simp [Cmd.isSetter]
  · intro hs hh
    rw [tick_setters]
    rcases hh with hh | hh
    · rw [(tick_speed_up cfg inp s hs hh).2]
      by_cases hlt : s.SpeedCalibration < 32760
      · exact ⟨2, by simp [setterCallsOfTick, hs, hh, hlt, List.replicate], by simp [hlt]⟩
      · exact ⟨0, by simp [setterCallsOfTick, hs, hh, hlt], by simp [hlt]⟩
    · rw [(tick_speed_down cfg inp s hs hh).2]
      by_cases hlt : s.SpeedCalibration > -32760
      · exact ⟨1, by simp [setterCallsOfTick, hs, hh, hlt, List.replicate], by simp [hlt]⟩
      · exact ⟨0, by simp [setterCallsOfTick, hs, hh, hlt], by simp [hlt]⟩
  · refine ⟨setterCallsOfTick inp s, tick_setters cfg inp s, ?_⟩
    intro c hc
    unfold setterCallsOfTick at hc
    split_ifs at hc <;> simp_all

/-- Witness of the amended C18: RaStepsEdit, UP held. -/
theorem C18_setters_of_a_tick_witness :
    (raEditAt 300).calState = RA_STEP_CALIBRATION ∧ (heldInput .btnUP).currentState = .btnUP ∧
    (tick exConfig (heldInput .btnUP) (raEditAt 300)).mount = (raEditAt 300).mount :=
  ⟨rfl, rfl,
    ((C18_setters_of_a_tick exConfig (heldInput .btnUP) (raEditAt 300)).1 (Or.inl rfl)
      (Or.inl rfl)).2⟩


/-! ### Reachable states -/

/-- One tick from a highlight state ends in a state of `tickBoundaryStates`. -/
theorem tick_calState_mem_highlight (cfg : Config) (inp : TickInput) (s : Sys)
    (h1 : HIGHLIGHT_FIRST ≤ s.calState) (h6 : s.calState ≤ HIGHLIGHT_LAST) :
    (tick cfg inp s).calState ∈ tickBoundaryStates := by
  have hc : s.calState = 1 ∨ s.calState = 2 ∨ s.calState = 3 ∨ s.calState = 4 ∨
      s.calState = 5 ∨ s.calState = 6 := by
    simp only [HIGHLIGHT_FIRST, HIGHLIGHT_LAST] at h1 h6; omega
  rcases hk : inp.keyChanged with _ | key
  · rcases hc with hs | hs | hs | hs | hs | hs <;>
      simp [tick, processCalibrationKeys, continuousPass, tickBoundaryStates, hs, hk]
  · rcases hc with hs | hs | hs | hs | hs | hs <;> cases key <;>
      simp [tick, processCalibrationKeys, continuousPass, dispatchKey, highlightCase,
        gotoNextHighlightState, toByte, adjustWrap, lcdSetNextActive, emit, tickBoundaryStates,
        hs, hk]

/-- One tick from PolarWaitCenterPolaris, DriftWaitSelectDuration or DriftRunning
ends in a state of `tickBoundaryStates`. -/
theorem tick_calState_mem_run (cfg : Config) (inp : TickInput) (s : Sys)
    (hc : s.calState = POLAR_CALIBRATION_WAIT_CENTER_POLARIS ∨
      s.calState = DRIFT_CALIBRATION_WAIT ∨ s.calState = DRIFT_CALIBRATION_RUNNING) :
    (tick cfg inp s).calState ∈ tickBoundaryStates := by
  rcases hk : inp.keyChanged with _ | key
  · rcases hc with hs | hs | hs <;>
      simp [tick, processCalibrationKeys, continuousPass, driftCalibrationRunning_eq,
        tickBoundaryStates, hs, hk]
  · rcases hc with hs | hs | hs <;> cases key <;>
      simp [tick, processCalibrationKeys, continuousPass, driftCalibrationRunning_eq,
        dispatchKey, highlightCase, gotoNextHighlightState, toByte, adjustWrap, lcdPrintMenu,
        lcdSetNextActive, mountDelay, emit, tickBoundaryStates, hs, hk]

/-- One tick from an edit state with neither UP nor DOWN held ends in the same
edit state or in its highlight state. -/
theorem tick_calState_mem_edit_idle (cfg : Config) (inp : TickInput) (s : Sys)
    (hc : s.calState = SPEED_CALIBRATION ∨ s.calState = RA_STEP_CALIBRATION ∨
      s.calState = DEC_STEP_CALIBRATION ∨ s.calState = BACKLASH_CALIBRATION)
    (hu : inp.currentState ≠ .btnUP) (hd : inp.currentState ≠ .btnDOWN) :
    (tick cfg inp s).calState ∈ tickBoundaryStates := by
  rcases hk : inp.keyChanged with _ | key
  · rcases hc with hs | hs | hs | hs <;>
      simp [tick, processCalibrationKeys, continuousPass, speedCalibrationHeld,
        checkProgressiveUpDown, tickBoundaryStates, hs, hu, hd, hk]
  · rcases hc with hs | hs | hs | hs <;> cases key <;>
      simp [tick, processCalibrationKeys, continuousPass, speedCalibrationHeld,
        checkProgressiveUpDown, dispatchKey, mountSetSpeedCalibration, mountSetStepsPerDegree,
        mountSetBacklashCorrection, lcdPrintMenu, lcdSetNextActive, mountDelay, emit,
        tickBoundaryStates, hs, hu, hd, hk]

/-- One tick from an edit state with UP or DOWN held stays in that state. -/
theorem tick_edit_held_calState (cfg : Config) (inp : TickInput) (s : Sys)
    (hc : s.calState = SPEED_CALIBRATION ∨ s.calState = RA_STEP_CALIBRATION ∨
      s.calState = DEC_STEP_CALIBRATION ∨ s.calState = BACKLASH_CALIBRATION)
    (hh : inp.currentState = .btnUP ∨ inp.currentState = .btnDOWN) :
    (tick cfg inp s).calState = s.calState := by
  rcases hc with hs | hs
  · rcases hh with hh | hh
    · rw [(tick_speed_up cfg inp s hs hh).1, hs]
    · rw [(tick_speed_down cfg inp s hs hh).1, hs]
  · exact (tick_progressive_held cfg inp s hs hh).1

/-- One tick from a state of `tickBoundaryStates` ends in a state of
`tickBoundaryStates`. -/
theorem tick_calState_mem (cfg : Config) (inp : TickInput) (s : Sys)
    (h : s.calState ∈ tickBoundaryStates) : (tick cfg inp s).calState ∈ tickBoundaryStates := by
  have h0 := h
  simp only [tickBoundaryStates, List.mem_cons, List.mem_singleton, List.not_mem_nil,
    or_false] at h
  have hcases : (HIGHLIGHT_FIRST ≤ s.calState ∧ s.calState ≤ HIGHLIGHT_LAST) ∨
      (s.calState = POLAR_CALIBRATION_WAIT_CENTER_POLARIS ∨
        s.calState = DRIFT_CALIBRATION_WAIT ∨ s.calState = DRIFT_CALIBRATION_RUNNING) ∨
      (s.calState = SPEED_CALIBRATION ∨ s.calState = RA_STEP_CALIBRATION ∨
        s.calState = DEC_STEP_CALIBRATION ∨ s.calState = BACKLASH_CALIBRATION) := by
    simp only [HIGHLIGHT_FIRST, HIGHLIGHT_LAST, HIGHLIGHT_POLAR, HIGHLIGHT_SPEED,
      HIGHLIGHT_DRIFT, HIGHLIGHT_RA_STEPS, HIGHLIGHT_DEC_STEPS, HIGHLIGHT_BACKLASH_STEPS,
      POLAR_CALIBRATION_WAIT_CENTER_POLARIS, SPEED_CALIBRATION, DRIFT_CALIBRATION_WAIT,
      DRIFT_CALIBRATION_RUNNING, RA_STEP_CALIBRATION, DEC_STEP_CALIBRATION,
      BACKLASH_CALIBRATION] at h ⊢
    omega
  rcases hcases with ⟨h1, h6⟩ | hrun | hedit
  · exact tick_calState_mem_highlight cfg inp s h1 h6
  · exact tick_calState_mem_run cfg inp s hrun
  · by_cases hu : inp.currentState = .btnUP
    · rw [tick_edit_held_calState cfg inp s hedit (Or.inl hu)]; exact h0
    · by_cases hd : inp.currentState = .btnDOWN
      · rw [tick_edit_held_calState cfg inp s hedit (Or.inr hd)]; exact h0
      · exact tick_calState_mem_edit_idle cfg inp s hedit hu hd

/-- Every state reached from a state of `tickBoundaryStates` is one of them. -/
theorem runTicks_calState_mem (cfg : Config) (inps : List TickInput) :
    ∀ s : Sys, s.calState ∈ tickBoundaryStates →
      (runTicks cfg inps s).calState ∈ tickBoundaryStates := by
  induction inps with
  | nil => intro s h; exact h
  | cons i rest ih =>
    intro s h
    rw [runTicks_cons]
    exact ih _ (tick_calState_mem cfg i s h)

/-- C22: starting from the initial state (Polar highlight) over any mount, after
any sequence of ticks with arbitrary inputs `calState` is one of the six
highlight states (1..6), 11, 14, 15, 16, 17, 18 or 19; in particular it is never
PolarWaitHome (12), so the branch of the first part of the tick that polls the
mount for slewing is never taken: the first part of every such tick is what it
is on the same state when the mount reports the opposite. -/
theorem C22_reachable_states (cfg : Config) (m : Mount) (inps : List TickInput) :
    (runTicks cfg inps (Sys.init m)).calState ∈
      [1, 2, 3, 4, 5, 6, 11, 14, 15, 16, 17, 18, 19] ∧
    (runTicks cfg inps (Sys.init m)).calState ≠ POLAR_CALIBRATION_WAIT_HOME ∧
    (∀ inp : TickInput,
      continuousPass inp (runTicks cfg inps (Sys.init m)) =
        continuousPass { inp with isSlewingRAorDEC := !inp.isSlewingRAorDEC }
          (runTicks cfg inps (Sys.init m))) := by
  have h := runTicks_calState_mem cfg inps (Sys.init m)
    (by show HIGHLIGHT_FIRST ∈ tickBoundaryStates; decide)
  have h12 : (runTicks cfg inps (Sys.init m)).calState ≠ POLAR_CALIBRATION_WAIT_HOME := by
    intro h'
    rw [h'] at h
    exact absurd h (by decide)
  refine ⟨h, h12, ?_⟩
  intro inp
  simp [continuousPass, h12]


/-! ### The reachable values of the delay -/

theorem gotoNextHighlightState_calDelay (dir : Int) (s : Sys) :
    (gotoNextHighlightState dir s).calDelay = s.calDelay := by
  unfold gotoNextHighlightState
  simp only []
  split_ifs <;> rfl

theorem highlightCase_calDelay (key : Button) (a b : Nat) (s : Sys) :
    (highlightCase key a b s).calDelay = s.calDelay := by
  cases key <;> simp [highlightCase, gotoNextHighlightState_calDelay, lcdSetNextActive, emit]

/-- The switch never assigns `calDelay`. -/
theorem dispatchKey_calDelay (cfg : Config) (inp : TickInput) (key : Button) (s : Sys) :
    (dispatchKey cfg inp key s).calDelay = s.calDelay := by
  rcases calState_cases s.calState with
    hs | hs | hs | hs | hs | hs | hs | hs | hs | hs | hs | hs | hs | hs | hs <;>
  cases key <;>
  simp [dispatchKey, hs, highlightCase_calDelay, gotoNextHighlightState_calDelay,
    mountSetSpeedCalibration, mountSetStepsPerDegree, mountSetBacklashCorrection, lcdPrintMenu,
    lcdSetNextActive, mountDelay, emit]

/-- A tick that begins outside the four edit states leaves `calDelay` as it is. -/
theorem tick_nonedit_calDelay (cfg : Config) (inp : TickInput) (s : Sys)
    (h14 : s.calState ≠ SPEED_CALIBRATION) (h17 : s.calState ≠ RA_STEP_CALIBRATION)
    (h18 : s.calState ≠ DEC_STEP_CALIBRATION) (h19 : s.calState ≠ BACKLASH_CALIBRATION) :
    (tick cfg inp s).calDelay = s.calDelay := by
  have hc : (continuousPass inp s).1 = true ∧ (continuousPass inp s).2.calDelay = s.calDelay := by
    by_cases h12 : s.calState = POLAR_CALIBRATION_WAIT_HOME
    · cases hsl : inp.isSlewingRAorDEC <;> simp [continuousPass, emit, h12, hsl]
    · by_cases h16 : s.calState = DRIFT_CALIBRATION_RUNNING
      · simp [continuousPass, driftCalibrationRunning_eq, h16]
      · simp [continuousPass, h12, h14, h16, h17, h18, h19]
  unfold tick processCalibrationKeys
  simp only [hc.1, if_true]
  cases hk : inp.keyChanged with
  | none => simpa using hc.2
  | some key =>
    simp only []
    rw [dispatchKey_calDelay]
    simpa using hc.2

/-- The invariant behind C21: the delay is 150, or the state is SpeedEdit and the
delay lies in 5..150, or the state is one of the three other edit states and
the delay lies in 25..150. One tick keeps it. -/
theorem tick_delay_invariant (cfg : Config) (inp : TickInput) (s : Sys)
    (h : s.calDelay = 150 ∨
      (s.calState = SPEED_CALIBRATION ∧ 5 ≤ s.calDelay ∧ s.calDelay ≤ 150) ∨
      ((s.calState = RA_STEP_CALIBRATION ∨ s.calState = DEC_STEP_CALIBRATION ∨
        s.calState = BACKLASH_CALIBRATION) ∧ 25 ≤ s.calDelay ∧ s.calDelay ≤ 150)) :
    (tick cfg inp s).calDelay = 150 ∨
      ((tick cfg inp s).calState = SPEED_CALIBRATION ∧ 5 ≤ (tick cfg inp s).calDelay ∧
        (tick cfg inp s).calDelay ≤ 150) ∨
      (((tick cfg inp s).calState = RA_STEP_CALIBRATION ∨
          (tick cfg inp s).calState = DEC_STEP_CALIBRATION ∨
          (tick cfg inp s).calState = BACKLASH_CALIBRATION) ∧
        25 ≤ (tick cfg inp s).calDelay ∧ (tick cfg inp s).calDelay ≤ 150) := by
  by_cases hheld : inp.currentState = .btnUP ∨ inp.currentState = .btnDOWN
  · by_cases h14 : s.calState = SPEED_CALIBRATION
    · have hb : 5 ≤ s.calDelay ∧ s.calDelay ≤ 150 := by
        rcases h with h | h | h
        · omega
        · exact h.2
        · simp only [SPEED_CALIBRATION, RA_STEP_CALIBRATION, DEC_STEP_CALIBRATION,
            BACKLASH_CALIBRATION] at h h14; omega
      have hd := tick_speed_delay cfg inp s h14 hheld
      have hs := tick_edit_held_calState cfg inp s (Or.inl h14) hheld
      have hsb := shrink_bounds 5 s.calDelay 0.96 (by decide) (by norm_num) (by norm_num)
      simp only [Int.cast_ofNat] at hsb
      right; left
      refine ⟨by rw [hs]; exact h14, ?_⟩
      rw [hd]
      by_cases h5 : 5 < s.calDelay
      · have := hsb.1 h5; omega
      · have := hsb.2 (by omega); omega
    · by_cases hp : s.calState = RA_STEP_CALIBRATION ∨ s.calState = DEC_STEP_CALIBRATION ∨
          s.calState = BACKLASH_CALIBRATION
      · have hb : 25 ≤ s.calDelay ∧ s.calDelay ≤ 150 := by
          rcases h with h | h | h
          · omega
          · exact absurd h.1 h14
          · exact h.2
        have hd := tick_progressive_delay cfg inp s hp hheld
        have hs := tick_edit_held_calState cfg inp s (Or.inr hp) hheld
        have hsb := shrink_bounds 25 s.calDelay 0.94 (by decide) (by norm_num) (by norm_num)
        simp only [Int.cast_ofNat] at hsb
        right; right
        refine ⟨by rw [hs]; exact hp, ?_⟩
        rw [hd]
        by_cases h5 : 25 < s.calDelay
        · have := hsb.1 h5; omega
        · have := hsb.2 (by omega); omega
      · have h150 : s.calDelay = 150 := by
          rcases h with h | h | h
          · exact h
          · exact absurd h.1 h14
          · exact absurd h.1 hp
        left
        rw [tick_nonedit_calDelay cfg inp s h14 (fun e => hp (Or.inl e))
          (fun e => hp (Or.inr (Or.inl e))) (fun e => hp (Or.inr (Or.inr e)))]
        exact h150
  · have hu : inp.currentState ≠ .btnUP := fun e => hheld (Or.inl e)
    have hd : inp.currentState ≠ .btnDOWN := fun e => hheld (Or.inr e)
    by_cases hedit : s.calState = SPEED_CALIBRATION ∨ s.calState = RA_STEP_CALIBRATION ∨
        s.calState = DEC_STEP_CALIBRATION ∨ s.calState = BACKLASH_CALIBRATION
    · left; exact tick_edit_idle_delay cfg inp s hedit hu hd
    · have h150 : s.calDelay = 150 := by
        rcases h with h | h | h
        · exact h
        · exact absurd (Or.inl h.1) hedit
        · exact absurd (Or.inr h.1) hedit
      left
      rw [tick_nonedit_calDelay cfg inp s (fun e => hedit (Or.inl e))
        (fun e => hedit (Or.inr (Or.inl e))) (fun e => hedit (Or.inr (Or.inr (Or.inl e))))
        (fun e => hedit (Or.inr (Or.inr (Or.inr e))))]
      exact h150

theorem runTicks_delay_invariant (cfg : Config) (inps : List TickInput) :
    ∀ s : Sys,
      (s.calDelay = 150 ∨
        (s.calState = SPEED_CALIBRATION ∧ 5 ≤ s.calDelay ∧ s.calDelay ≤ 150) ∨
        ((s.calState = RA_STEP_CALIBRATION ∨ s.calState = DEC_STEP_CALIBRATION ∨
          s.calState = BACKLASH_CALIBRATION) ∧ 25 ≤ s.calDelay ∧ s.calDelay ≤ 150)) →
      ((runTicks cfg inps s).calDelay = 150 ∨
        ((runTicks cfg inps s).calState = SPEED_CALIBRATION ∧
          5 ≤ (runTicks cfg inps s).calDelay ∧ (runTicks cfg inps s).calDelay ≤ 150) ∨
        (((runTicks cfg inps s).calState = RA_STEP_CALIBRATION ∨
            (runTicks cfg inps s).calState = DEC_STEP_CALIBRATION ∨
            (runTicks cfg inps s).calState = BACKLASH_CALIBRATION) ∧
          25 ≤ (runTicks cfg inps s).calDelay ∧ (runTicks cfg inps s).calDelay ≤ 150)) := by
  induction inps with
  | nil => intro s h; exact h
  | cons i rest ih =>
    intro s h
    rw [runTicks_cons]
    exact ih _ (tick_delay_invariant cfg i s h)

/-- C21: starting from the initial state (Polar highlight, delay 150) over any
mount, after any sequence of ticks with arbitrary inputs the delay lies in
5..150; it is 150 whenever the state is not one of the four edit states; and
it is at least 25 whenever the state is RaStepsEdit, DecStepsEdit or
BacklashEdit. -/
theorem C21_delay_invariant (cfg : Config) (m : Mount) (inps : List TickInput) :
    5 ≤ (runTicks cfg inps (Sys.init m)).calDelay ∧
    (runTicks cfg inps (Sys.init m)).calDelay ≤ 150 ∧
    (((runTicks cfg inps (Sys.init m)).calState ≠ SPEED_CALIBRATION ∧
        (runTicks cfg inps (Sys.init m)).calState ≠ RA_STEP_CALIBRATION ∧
        (runTicks cfg inps (Sys.init m)).calState ≠ DEC_STEP_CALIBRATION ∧
        (runTicks cfg inps (Sys.init m)).calState ≠ BACKLASH_CALIBRATION) →
      (runTicks cfg inps (Sys.init m)).calDelay = 150) ∧
    (((runTicks cfg inps (Sys.init m)).calState = RA_STEP_CALIBRATION ∨
        (runTicks cfg inps (Sys.init m)).calState = DEC_STEP_CALIBRATION ∨
        (runTicks cfg inps (Sys.init m)).calState = BACKLASH_CALIBRATION) →
      25 ≤ (runTicks cfg inps (Sys.init m)).calDelay) := by
  have h := runTicks_delay_invariant cfg inps (Sys.init m) (Or.inl rfl)
  refine ⟨?_, ?_, ?_, ?_⟩
  · rcases h with h | h | h <;> omega
  · rcases h with h | h | h <;> omega
  · rintro ⟨n14, n17, n18, n19⟩
    rcases h with h | h | h
    · exact h
    · exact absurd h.1 n14
    · rcases h.1 with e | e | e
      · exact absurd e n17
      · exact absurd e n18
      · exact absurd e n19
  · intro hp
    rcases h with h | h | h
    · omega
    · exfalso
      have h14 := h.1
      rcases hp with e | e | e <;> rw [e] at h14 <;> exact absurd h14 (by decide)
    · exact h.2.1

/-- Witness of C21: after 40 ticks with UP held in RaStepsEdit, entered from the
initial state by three DOWN edges and a SELECT edge, the delay is still at
least 25. -/
theorem C21_delay_invariant_witness :
    25 ≤ (runTicks exConfig
      ([edgeInput .btnDOWN, edgeInput .btnDOWN, edgeInput .btnDOWN, edgeInput .btnSELECT] ++
        List.replicate 40 (heldInput .btnUP)) (Sys.init exMount)).calDelay :=
  (C21_delay_invariant exConfig exMount
    ([edgeInput .btnDOWN, edgeInput .btnDOWN, edgeInput .btnDOWN, edgeInput .btnSELECT] ++
      List.replicate 40 (heldInput .btnUP))).2.2.2
    (Or.inl (by
      rw [runTicks_append]
      have h4 : (runTicks exConfig
          [edgeInput .btnDOWN, edgeInput .btnDOWN, edgeInput .btnDOWN, edgeInput .btnSELECT]
          (Sys.init exMount)).calState = RA_STEP_CALIBRATION := by decide
      exact (runTicks_progressive_held exConfig (List.replicate 40 (heldInput .btnUP)) _
        (Or.inl h4) (fun i hi => by
          rw [List.eq_of_mem_replicate hi]; exact Or.inl rfl)).1.trans h4))

/-! ### The menu line -/

theorem formatItem_length (a : Bool) (d : List Char) : (formatItem a d).length = d.length + 2 := by
  simp [formatItem]

/-- The loop of `updateDisplay` on items whose texts have at most 9 characters,
when the menu string stays below 256 characters: it returns the accumulated
menu string followed by `menuText`, and the offset of the active item when
the active index is among the items still to come. -/
theorem buildMenuString_eq (active : Nat) (items : List MenuItem) :
    ∀ (i : Nat) (b : MenuBuild),
      (∀ it ∈ items, it.display.length ≤ 9) →
      b.offset = b.menuString.length →
      b.menuString.length + (menuText active items i).length < 256 →
      buildMenuString active items i b = some
        { menuString := b.menuString ++ menuText active items i
          offsetToActive :=
            if i ≤ active ∧ active < i + items.length then
              b.menuString.length + activeOffset active items i
            else b.offsetToActive
          offset := b.menuString.length + (menuText active items i).length } := by
  induction items with
  | nil =>
    intro i b _ hoff _
    have hno : ¬ (i ≤ active ∧ active < i) := by omega
    cases b
    simp only [buildMenuString, menuText, List.append_nil, List.length_nil, Nat.add_zero,
      if_neg hno]
    simp only at hoff
    rw [hoff]
  | cons item rest ih =>
    intro i b hlen hoff htot
    have hitem : item.display.length ≤ 9 := hlen item (by simp)
    have hrest : ∀ it ∈ rest, it.display.length ≤ 9 := fun it h => hlen it (by simp [h])
    simp only [menuText, List.length_append, formatItem_length] at htot
    have hfit : (formatItem (decide (i = active)) item.display).length < 12 := by
      rw [formatItem_length]; omega
    have hmod : (b.offset + (item.display.length + 2)) % 256 =
        b.menuString.length + (item.display.length + 2) := by
      rw [hoff]; exact Nat.mod_eq_of_lt (by omega)
    unfold buildMenuString
    simp only [hfit, if_true]
    rw [ih (i + 1) _ hrest (by simp [formatItem_length, hmod])
      (by simp [formatItem_length]; omega)]
    simp only [menuText, activeOffset, List.length_append, formatItem_length, List.length_cons,
      List.append_assoc, Option.some.injEq, MenuBuild.mk.injEq, true_and]
    refine ⟨?_, by omega⟩
    by_cases hia : i = active
    · have h1 : ¬ (i + 1 ≤ active ∧ active < i + 1 + rest.length) := by omega
      have h2 : i ≤ active ∧ active < i + (rest.length + 1) := by omega
      simp only [hia, decide_True, if_true] at *
      rw [if_neg h1, if_pos h2, hoff]
      simp
    · by_cases hin : i + 1 ≤ active ∧ active < i + 1 + rest.length
      · have h2 : i ≤ active ∧ active < i + (rest.length + 1) := by omega
        rw [if_pos hin, if_pos h2, if_neg hia]
        omega
      · have h2 : ¬ (i ≤ active ∧ active < i + (rest.length + 1)) := by omega
        rw [if_neg hin, if_neg h2]
        simp [hia]


/-- In the menu string the character at the offset of the active item is `>`. -/
theorem menuText_at_active (active : Nat) (items : List MenuItem) :
    ∀ i : Nat, i ≤ active → active < i + items.length →
      (menuText active items i)[activeOffset active items i]? = some '>' := by
  induction items with
  | nil => intro i h1 h2; simp at h2; omega
  | cons item rest ih =>
    intro i h1 h2
    by_cases hia : i = active
    · simp [menuText, activeOffset, formatItem, hia]
    · have hlt : i + 1 ≤ active := by omega
      have h3 : active < i + 1 + rest.length := by simp at h2; omega
      simp only [menuText, activeOffset, if_neg hia]
      rw [List.getElem?_append_right (by rw [formatItem_length]; omega), formatItem_length]
      have : item.display.length + 2 + activeOffset active rest (i + 1) -
          (item.display.length + 2) = activeOffset active rest (i + 1) := by omega
      rw [this]
      exact ih (i + 1) hlt h3

/-- The content of `bufMenu` after the three loops: the menu string `S` seen
through a window of `cols` columns placed so that the character at offset
`off` of `S` stands in column `margin`; spaces wherever the window is outside
of `S`. -/
theorem window_getElem (S : List Char) (cols margin off j : Nat) (hj : j < cols) :
    (List.replicate (margin - off) ' ' ++
        (S.drop (off - margin)).take (cols - (margin - off)) ++
        List.replicate (cols - ((margin - off) +
          ((S.drop (off - margin)).take (cols - (margin - off))).length)) ' ')[j]? =
      some (if margin ≤ off + j then S.getD (off + j - margin) ' ' else ' ') := by
  simp only [List.getElem?_append, List.length_append, List.length_replicate, List.length_take,
    List.length_drop, List.getElem?_replicate, List.getElem?_take, List.getElem?_drop,
    List.getD_eq_getElem?_getD]
  split_ifs with h1 h2 h3 h4 h5 h6 h7 <;> try omega
  · rfl
  · have hidx : off - margin + (j - (margin - off)) = off + j - margin := by omega
    have hlt : off + j - margin < S.length := by omega
    rw [hidx, List.getElem?_eq_getElem hlt]
    rfl
  · have hge : S.length ≤ off + j - margin := by omega
    rw [List.getElem?_eq_none hge]
    rfl


theorem margin_eq (cols longest : Nat) (h : longest ≤ cols) :
    Int.tdiv ((cols : Int) - (longest : Int)) 2 = (((cols - longest) / 2 : Nat) : Int) := by
  have h1 : ((cols : Int) - (longest : Int)) = ((cols - longest : Nat) : Int) := by omega
  rw [h1, Int.tdiv_eq_ediv (by omega) (by omega)]
  norm_cast

theorem toNat_neg_sub (a b : Nat) : (-((a : Int) - (b : Int))).toNat = b - a := by omega

theorem toNat_sub_nat (a b : Nat) : ((a : Int) - (b : Int)).toNat = a - b := by omega

/-- The line of `updateDisplay` for a menu whose texts have at most 9 characters,
whose menu string has fewer than 256 characters and whose longest text fits
the at most 16 columns. -/
theorem updateDisplayLine_eq (m : LcdMenu)
    (hlab : ∀ it ∈ m.menuItems, it.display.length ≤ 9)
    (htot : (menuText m.activeMenuIndex m.menuItems 0).length < 256)
    (hlc : m.longestDisplay ≤ m.columns) (hc16 : m.columns ≤ 16) :
    m.updateDisplayLine = some
      (List.replicate ((m.columns - m.longestDisplay) / 2 -
          (if m.activeMenuIndex < m.menuItems.length then
            activeOffset m.activeMenuIndex m.menuItems 0 else 0)) ' ' ++
        ((menuText m.activeMenuIndex m.menuItems 0).drop
          ((if m.activeMenuIndex < m.menuItems.length then
            activeOffset m.activeMenuIndex m.menuItems 0 else 0) -
            (m.columns - m.longestDisplay) / 2)).take
          (m.columns - ((m.columns - m.longestDisplay) / 2 -
            (if m.activeMenuIndex < m.menuItems.length then
              activeOffset m.activeMenuIndex m.menuItems 0 else 0))) ++
        List.replicate (m.columns - (((m.columns - m.longestDisplay) / 2 -
            (if m.activeMenuIndex < m.menuItems.length then
              activeOffset m.activeMenuIndex m.menuItems 0 else 0)) +
          (((menuText m.activeMenuIndex m.menuItems 0).drop
            ((if m.activeMenuIndex < m.menuItems.length then
              activeOffset m.activeMenuIndex m.menuItems 0 else 0) -
              (m.columns - m.longestDisplay) / 2)).take
            (m.columns - ((m.columns - m.longestDisplay) / 2 -
              (if m.activeMenuIndex < m.menuItems.length then
                activeOffset m.activeMenuIndex m.menuItems 0 else 0)))).length)) ' ') := by
  unfold LcdMenu.updateDisplayLine
  rw [buildMenuString_eq m.activeMenuIndex m.menuItems 0 ⟨[], 0, 0⟩ hlab rfl
    (by simpa using htot)]
  simp only [List.nil_append, List.length_nil, Nat.zero_add, Nat.zero_le, true_and,
    margin_eq _ _ hlc, toNat_neg_sub, toNat_sub_nat, List.length_replicate]
  rw [if_pos]
  simp only [List.length_append, List.length_replicate, List.length_take, List.length_drop]
  omega


/-- C23 as stated fails. A menu with one item of ten characters on 16 columns
meets every condition of the claim (one item, menu string of 12 characters,
longest text 10 at most the 16 columns, active index 0), but the formatted item
needs 13 bytes of the 12-byte `scratchBuffer`: no line is defined. And a menu
with one empty item on a display of no columns meets them too, but its line is
empty and has no `>` in column 0. -/
theorem C23_counterexample :
    (longLabelMenu.menuItems.length = 1 ∧
      (menuText longLabelMenu.activeMenuIndex longLabelMenu.menuItems 0).length = 12 ∧
      longLabelMenu.longestDisplay ≤ longLabelMenu.columns ∧ longLabelMenu.columns ≤ 16 ∧
      longLabelMenu.activeMenuIndex < longLabelMenu.menuItems.length ∧
      longLabelMenu.updateDisplayLine = none) ∧
    (noColumnsMenu.menuItems.length = 1 ∧
      (menuText noColumnsMenu.activeMenuIndex noColumnsMenu.menuItems 0).length = 2 ∧
      noColumnsMenu.longestDisplay ≤ noColumnsMenu.columns ∧ noColumnsMenu.columns ≤ 16 ∧
      noColumnsMenu.activeMenuIndex < noColumnsMenu.menuItems.length ∧
      noColumnsMenu.updateDisplayLine = some [] ∧
      ([] : List Char)[(noColumnsMenu.columns - noColumnsMenu.longestDisplay) / 2]? ≠
        some '>') := by
  decide

/-- C23, amended: for a menu whose item texts have at most 9 characters, whose
menu string has fewer than 256 characters, with
`_longestDisplay <= _columns`, `1 <= _columns <= 16` and an active index inside
the items, `updateDisplay` passes to `printMenu` a line of exactly `_columns`
characters whose character in column `(_columns - _longestDisplay) / 2` is the
`>` that opens the active item, whichever item is active. The line is the menu
string shifted so that this `>` stands in that column; every column outside
the menu string, before its start or after its end, holds a space. -/
theorem C23_arrow_column (m : LcdMenu)
    (hlab : ∀ it ∈ m.menuItems, it.display.length ≤ 9)
    (htot : (menuText m.activeMenuIndex m.menuItems 0).length < 256)
    (hlc : m.longestDisplay ≤ m.columns) (hc1 : 1 ≤ m.columns) (hc16 : m.columns ≤ 16)
    (hact : m.activeMenuIndex < m.menuItems.length) :
    ∃ shown, m.updateDisplayLine = some shown ∧ shown.length = m.columns ∧
      shown[(m.columns - m.longestDisplay) / 2]? = some '>' ∧
      (menuText m.activeMenuIndex m.menuItems 0)[activeOffset m.activeMenuIndex m.menuItems 0]? =
        some '>' ∧
      ∀ j, j < m.columns →
        shown[j]? = some
          (if (m.columns - m.longestDisplay) / 2 ≤
              activeOffset m.activeMenuIndex m.menuItems 0 + j then
            (menuText m.activeMenuIndex m.menuItems 0).getD
              (activeOffset m.activeMenuIndex m.menuItems 0 + j -
                (m.columns - m.longestDisplay) / 2) ' '
          else ' ') := by
  have heq := updateDisplayLine_eq m hlab htot hlc hc16
  simp only [if_pos hact] at heq
  have hS := menuText_at_active m.activeMenuIndex m.menuItems 0 (Nat.zero_le _)
    (by simpa using hact)
  have hwin := fun j (hj : j < m.columns) =>
    window_getElem (menuText m.activeMenuIndex m.menuItems 0) m.columns
      ((m.columns - m.longestDisplay) / 2) (activeOffset m.activeMenuIndex m.menuItems 0) j hj
  refine ⟨_, heq, ?_, ?_, hS, hwin⟩
  · simp only [List.length_append, List.length_replicate, List.length_take, List.length_drop]
    omega
  · have hm : (m.columns - m.longestDisplay) / 2 < m.columns := by omega
    rw [hwin _ hm, if_pos (Nat.le_add_left _ _), Nat.add_sub_cancel,
      List.getD_eq_getElem?_getD, hS]
    rfl

/-- Witness of the amended C23: the menu RA, DEC, CAL on 16 columns with DEC
active shows `>` in column 6. -/
theorem C23_arrow_column_witness :
    (exMenu 1).activeMenuIndex < (exMenu 1).menuItems.length ∧
    (exMenu 1).updateDisplayLine = some "   RA >DEC< CAL ".toList ∧
    ∃ shown, (exMenu 1).updateDisplayLine = some shown ∧ shown.length = (exMenu 1).columns ∧
      shown[((exMenu 1).columns - (exMenu 1).longestDisplay) / 2]? = some '>' :=
  have h := C23_arrow_column (exMenu 1) (by decide) (by decide) (by decide) (by decide)
    (by decide) (by decide)
  ⟨by decide, by decide, h.choose, h.choose_spec.1, h.choose_spec.2.1, h.choose_spec.2.2.1⟩


/-! ### The active menu item -/

/-- The loop of `updateDisplay` returns when every text has at most 9 characters. -/
theorem buildMenuString_isSome (active : Nat) (items : List MenuItem) :
    ∀ (i : Nat) (b : MenuBuild), (∀ it ∈ items, it.display.length ≤ 9) →
      ∃ b1, buildMenuString active items i b = some b1 := by
  induction items with
  | nil => intro i b _; exact ⟨b, rfl⟩
  | cons item rest ih =>
    intro i b hlen
    have hitem : item.display.length ≤ 9 := hlen item (by simp)
    have hfit : (formatItem (decide (i = active)) item.display).length < 12 := by
      rw [formatItem_length]; omega
    unfold buildMenuString
    simp only [hfit, if_true]
    exact ih _ _ (fun it h => hlen it (by simp [h]))

/-- The margin is never more than the number of columns. -/
theorem margin_le (cols longest : Nat) :
    Int.tdiv ((cols : Int) - (longest : Int)) 2 ≤ (cols : Int) := by
  by_cases h : longest ≤ cols
  · rw [margin_eq _ _ h]
    have : (cols - longest) / 2 ≤ cols := by omega
    exact_mod_cast this
  · have h1 : ((cols : Int) - (longest : Int)) = -(((longest - cols : Nat) : Int)) := by omega
    rw [h1, Int.neg_tdiv]
    have : 0 ≤ Int.tdiv ((longest - cols : Nat) : Int) 2 :=
      Int.tdiv_nonneg (by omega) (by omega)
    omega

/-- The line of `updateDisplay` is defined when every text has at most 9
characters and there are at most 16 columns. -/
theorem updateDisplayLine_isSome (m : LcdMenu)
    (hlab : ∀ it ∈ m.menuItems, it.display.length ≤ 9) (hc16 : m.columns ≤ 16) :
    ∃ shown, m.updateDisplayLine = some shown := by
  obtain ⟨b, hb⟩ := buildMenuString_isSome m.activeMenuIndex m.menuItems 0 ⟨[], 0, 0⟩ hlab
  unfold LcdMenu.updateDisplayLine
  rw [hb]
  simp only []
  have hm := margin_le m.columns m.longestDisplay
  rw [if_pos]
  · exact ⟨_, rfl⟩
  · simp only [List.length_append, List.length_replicate, List.length_take, List.length_drop]
    omega

theorem printChar_frame (ch : Char) (m : LcdMenu) :
    (m.printChar ch).menuItems = m.menuItems ∧
    (m.printChar ch).activeMenuIndex = m.activeMenuIndex ∧
    (m.printChar ch).longestDisplay = m.longestDisplay ∧
    (m.printChar ch).columns = m.columns := by
  unfold LcdMenu.printChar
  split_ifs <;> exact ⟨rfl, rfl, rfl, rfl⟩

theorem foldl_printChar_frame (shown : List Char) :
    ∀ m : LcdMenu,
      (shown.foldl (fun acc ch => LcdMenu.printChar ch acc) m).menuItems = m.menuItems ∧
      (shown.foldl (fun acc ch => LcdMenu.printChar ch acc) m).activeMenuIndex =
        m.activeMenuIndex ∧
      (shown.foldl (fun acc ch => LcdMenu.printChar ch acc) m).longestDisplay =
        m.longestDisplay ∧
      (shown.foldl (fun acc ch => LcdMenu.printChar ch acc) m).columns = m.columns := by
  induction shown with
  | nil => intro m; exact ⟨rfl, rfl, rfl, rfl⟩
  | cons c rest ih =>
    intro m
    obtain ⟨a1, a2, a3, a4⟩ := ih (m.printChar c)
    obtain ⟨b1, b2, b3, b4⟩ := printChar_frame c m
    simp only [List.foldl_cons]
    exact ⟨a1.trans b1, a2.trans b2, a3.trans b3, a4.trans b4⟩

/-- On row 0 or 1 `printMenu` returns and keeps the items, the active index, the
longest length and the number of columns. -/
theorem printMenu_frame (shown : List Char) (m : LcdMenu) (hrow : m.activeRow < 2) :
    ∃ m1, m.printMenu shown = some m1 ∧ m1.menuItems = m.menuItems ∧
      m1.activeMenuIndex = m.activeMenuIndex ∧ m1.longestDisplay = m.longestDisplay ∧
      m1.columns = m.columns := by
  unfold LcdMenu.printMenu
  rw [if_neg (by omega)]
  simp only []
  by_cases hc : (if m.activeRow = 0 then m.lastDisplay0 else m.lastDisplay1) ≠ shown ∨
      m.activeCol ≠ 0
  · rw [if_pos hc]
    refine ⟨_, rfl, ?_, ?_, ?_, ?_⟩ <;>
      (simp only [foldl_printChar_frame]; split_ifs <;> rfl)
  · rw [if_neg hc]
    exact ⟨m, rfl, rfl, rfl, rfl, rfl⟩

/-- When every text has at most 9 characters and there are at most 16 columns,
`updateDisplay` returns and keeps the items, the active index, the longest
length and the number of columns. -/
theorem updateDisplay_frame (m : LcdMenu)
    (hlab : ∀ it ∈ m.menuItems, it.display.length ≤ 9) (hc16 : m.columns ≤ 16) :
    ∃ m1, m.updateDisplay = some m1 ∧ m1.menuItems = m.menuItems ∧
      m1.activeMenuIndex = m.activeMenuIndex ∧ m1.longestDisplay = m.longestDisplay ∧
      m1.columns = m.columns := by
  obtain ⟨shown, hs⟩ := updateDisplayLine_isSome m hlab hc16
  obtain ⟨m2, hp, a1, a2, a3, a4⟩ := printMenu_frame shown
    { m with lcd := m.lcd ++ [LcdCall.setCursor 0 0], activeRow := 0, activeCol := 0 }
    (by show (0 : Nat) < 2; omega)
  unfold LcdMenu.updateDisplay
  rw [hs]
  simp only []
  rw [hp]
  exact ⟨_, rfl, a1, a2, a3, a4⟩

/-- The index `setNextActive` assigns, for `n` items with `1 <= n < 256` and an
index `i < n`. -/
theorem nextIndex_eq (i n : Nat) (hn1 : 1 ≤ n) (hn : n < 256) :
    toByte (adjustWrap i 1 0 ((n : Int) - 1)) = (i + 1) % n := by
  unfold toByte adjustWrap
  have h1 : (0 : Int) + ((i : Int) + 1 - 0) % ((n : Int) - 1 + 1 - 0) = (((i + 1) % n : Nat) : Int) := by
    have : ((n : Int) - 1 + 1 - 0) = (n : Int) := by omega
    rw [this]
    simp only [sub_zero, zero_add]
    push_cast
    rfl
  rw [h1]
  have hlt : (i + 1) % n < n := Nat.mod_lt _ (by omega)
  omega

/-- One call of `setNextActive` on a menu whose texts have at most 9 characters,
with at most 16 columns and `1 <= n < 256` items. -/
theorem setNextActive_spec (m : LcdMenu)
    (hlab : ∀ it ∈ m.menuItems, it.display.length ≤ 9) (hc16 : m.columns ≤ 16)
    (hn1 : 1 ≤ m.menuItems.length) (hn : m.menuItems.length < 256) :
    ∃ m1, m.setNextActive = some m1 ∧ m1.menuItems = m.menuItems ∧
      m1.activeMenuIndex = (m.activeMenuIndex + 1) % m.menuItems.length ∧
      m1.longestDisplay = m.longestDisplay ∧ m1.columns = m.columns := by
  have key := fun j : Nat =>
    updateDisplay_frame ({ m with activeMenuIndex := j } : LcdMenu) hlab hc16
  obtain ⟨m2, hu, a1, a2, a3, a4⟩ :=
    key (toByte (adjustWrap m.activeMenuIndex 1 0 ((m.menuItems.length : Int) - 1)))
  unfold LcdMenu.setNextActive
  simp only []
  rw [hu]
  refine ⟨_, rfl, a1, ?_, a3, a4⟩
  show m2.activeMenuIndex = _
  rw [a2]
  exact nextIndex_eq _ _ hn1 hn

/-- After `k` calls of `setNextActive` the active index has moved `k` places
round the items. -/
theorem setNextActiveTimes_spec (k : Nat) :
    ∀ m : LcdMenu, (∀ it ∈ m.menuItems, it.display.length ≤ 9) → m.columns ≤ 16 →
      1 ≤ m.menuItems.length → m.menuItems.length < 256 →
      m.activeMenuIndex < m.menuItems.length →
      ∃ m1, m.setNextActiveTimes k = some m1 ∧ m1.menuItems = m.menuItems ∧
        m1.activeMenuIndex = (m.activeMenuIndex + k) % m.menuItems.length := by
  induction k with
  | zero =>
    intro m _ _ _ _ hi
    exact ⟨m, rfl, rfl, by rw [Nat.add_zero, Nat.mod_eq_of_lt hi]⟩
  | succ k ih =>
    intro m hlab hc16 hn1 hn hi
    obtain ⟨m1, h1, b1, b2, _, b4⟩ := setNextActive_spec m hlab hc16 hn1 hn
    have hi1 : m1.activeMenuIndex < m1.menuItems.length := by
      rw [b1, b2]; exact Nat.mod_lt _ (by omega)
    obtain ⟨m2, h2, c1, c2⟩ := ih m1 (by rw [b1]; exact hlab) (by rw [b4]; exact hc16)
      (by rw [b1]; exact hn1) (by rw [b1]; exact hn) hi1
    refine ⟨m2, ?_, c1.trans b1, ?_⟩
    · show (match m.setNextActive with
        | none => none
        | some m1 => LcdMenu.setNextActiveTimes k m1) = some m2
      rw [h1]; exact h2
    · rw [c2, b1, b2, Nat.mod_add_mod]
      congr 1
      omega


/-- C24 as stated fails for the same reason as C23: on a menu with one item of
ten characters (n = 1, active index 0) the call of `updateDisplay` inside
`setNextActive` overruns `scratchBuffer`, so the call has no defined result. -/
theorem C24_counterexample :
    1 ≤ longLabelMenu.menuItems.length ∧
    longLabelMenu.activeMenuIndex < longLabelMenu.menuItems.length ∧
    longLabelMenu.setNextActive = none := by
  decide

/-- C24, amended: for a menu with `n` items, `1 <= n <= 255`, whose texts have at
most 9 characters, on at most 16 columns, and an active index `i < n`: one call
of `setNextActive` returns with the active index `(i + 1) mod n` and the same
items, so the index stays below `n` and `getActive` reads inside the items;
and `n` calls in a row return to the index `i`, the item that was active
initially. -/
theorem C24_next_active_wraps (m : LcdMenu)
    (hlab : ∀ it ∈ m.menuItems, it.display.length ≤ 9) (hc16 : m.columns ≤ 16)
    (hn1 : 1 ≤ m.menuItems.length) (hn : m.menuItems.length < 256)
    (hi : m.activeMenuIndex < m.menuItems.length) :
    (∃ m1, m.setNextActive = some m1 ∧
      m1.activeMenuIndex = (m.activeMenuIndex + 1) % m.menuItems.length ∧
      m1.activeMenuIndex < m.menuItems.length ∧ m1.menuItems = m.menuItems ∧
      m1.getActive.isSome = true) ∧
    (∃ m2, m.setNextActiveTimes m.menuItems.length = some m2 ∧
      m2.activeMenuIndex = m.activeMenuIndex ∧ m2.menuItems = m.menuItems ∧
      m2.getActive = m.getActive) := by
  constructor
  · obtain ⟨m1, h1, b1, b2, _, _⟩ := setNextActive_spec m hlab hc16 hn1 hn
    have hlt : m1.activeMenuIndex < m.menuItems.length := by
      rw [b2]; exact Nat.mod_lt _ (by omega)
    refine ⟨m1, h1, b2, hlt, b1, ?_⟩
    unfold LcdMenu.getActive
    rw [b1, List.getElem?_eq_getElem hlt]
    rfl
  · obtain ⟨m2, h2, c1, c2⟩ := setNextActiveTimes_spec m.menuItems.length m hlab hc16 hn1 hn hi
    have hidx : m2.activeMenuIndex = m.activeMenuIndex := by
      rw [c2, Nat.add_mod_right, Nat.mod_eq_of_lt hi]
    refine ⟨m2, h2, hidx, c1, ?_⟩
    unfold LcdMenu.getActive
    rw [c1, hidx]

/-- Witness of the amended C24: from the last of the three items RA, DEC, CAL
one call goes to the first. -/
theorem C24_next_active_wraps_witness :
    (exMenu 2).activeMenuIndex < (exMenu 2).menuItems.length ∧
    ((exMenu 2).setNextActive).map LcdMenu.activeMenuIndex = some 0 ∧
    ∃ m1, (exMenu 2).setNextActive = some m1 ∧
      m1.activeMenuIndex = ((exMenu 2).activeMenuIndex + 1) % (exMenu 2).menuItems.length :=
  have h := (C24_next_active_wraps (exMenu 2) (by decide) (by decide) (by decide) (by decide)
    (by decide)).1
  ⟨by decide, by decide, h.choose, h.choose_spec.1, h.choose_spec.2.1⟩

end OAT
